import Mathlib

/-!
# SHT31 driver (mgos_sht31.c): shallow embedding

The driver talks to the sensor through `mgos_i2c_write` / `mgos_i2c_read`, samples the clock with
`mg_time()` and sleeps with `mgos_usleep`.  These collaborators are not part of the driver, so every
driver function takes the answers of the collaborators it consults as explicit arguments and
returns, next to its C result, the list of collaborator calls it issued (its trace).

Conventions:
* `uint8_t` / `uint16_t` / `uint32_t` values are `Nat` with an explicit `% 2^w` where the C code
  can exceed the width;
* `float` (binary32) and `double` (binary64) values are the rationals they denote; every
  arithmetic operation of the C code on them is followed by the rounding of its format
  (`f32`, `f64`: to nearest, ties to even), the one exception being the subtraction of the cache
  test, which is taken without rounding (rounding it could change the comparison with 2 only
  for differences within 2^-52 of 2, see `cache_test_rounding`); overflow to infinity does not
  occur for the values of this driver and is not modelled; the `NAN` an accessor may return is
  `none`;
* pointers that may be `NULL` are `Option`s;
* `LOG(...)` calls have no effect on the driver state and are left out.
-/

namespace SHT31

/-! ## Constants (mgos_sht31.h, mgos_sht31_internal.h) -/

/-- Cache window in seconds, `#define MGOS_SHT31_READ_DELAY (2)`. -/
def MGOS_SHT31_READ_DELAY : ℚ := 2

def MGOS_SHT31_MEAS_HIGHREP : Nat := 0x2400
def MGOS_SHT31_READSTATUS : Nat := 0xF32D
def MGOS_SHT31_SOFTRESET : Nat := 0x30A2
def MGOS_SHT31_HEATEREN : Nat := 0x306D
def MGOS_SHT31_HEATERDIS : Nat := 0x3066

/-! ## Data model -/

/-- The `struct mgos_sht31_stats` record of mgos_sht31.h. -/
structure mgos_sht31_stats where
  last_read_time : ℚ
  read : Nat
  read_success : Nat
  read_success_cached : Nat
  read_success_usecs : ℚ
  deriving DecidableEq

/-- The `struct mgos_sht31` record of mgos_sht31_internal.h; `i2c = none` is the `NULL` bus. -/
structure mgos_sht31 where
  i2c : Option Nat
  i2caddr : Nat
  stats : mgos_sht31_stats
  humidity : ℚ
  temperature : ℚ
  deriving DecidableEq

/-- Calls the driver makes to its collaborators, in the order of the C arguments. -/
inductive Event where
  | i2c_write (i2c : Option Nat) (addr : Nat) (data : List Nat) (stop : Bool)
  | i2c_read (i2c : Option Nat) (addr : Nat) (len : Nat) (stop : Bool)
  | usleep (usecs : Nat)
  deriving DecidableEq

/-- Byte `data[i]` of a `uint8_t` buffer filled by the bus.  A successful `mgos_i2c_read` of `n`
bytes answers with a list of `n` values below 256; the reduction modulo 256 and the default 0
make the function total on every list. -/
def byteAt (data : List Nat) (i : Nat) : Nat := data.getD i 0 % 256

/-! ## Floating point -/

/-- Round a rational to an integer: to nearest, a tie goes to the even integer. -/
def roundEven (y : ℚ) : ℤ :=
  if 2 * Int.fract y < 1 then ⌊y⌋
  else if 1 < 2 * Int.fract y then ⌊y⌋ + 1
  else if ⌊y⌋ % 2 = 0 then ⌊y⌋ else ⌊y⌋ + 1

/-- Exponent of the binade of `x ≥ 0` in a binary format with least exponent `emin`: the `e` with
`2^e ≤ x < 2^(e+1)`, and `emin` for the subnormal numbers. -/
def binade (emin : ℤ) (x : ℚ) : ℤ := max (Int.log 2 x) emin

/-- Rounding of `x ≥ 0` to a binary format with `p` significand bits: the nearest multiple of the
unit in the last place `2^(e - (p - 1))` of its binade, ties to even. -/
def roundPos (p : ℕ) (emin : ℤ) (x : ℚ) : ℚ :=
  (roundEven (x / 2 ^ (binade emin x - ((p : ℤ) - 1))) : ℚ) * 2 ^ (binade emin x - ((p : ℤ) - 1))

/-- IEEE 754 round-to-nearest-even to a binary format; the rounding is symmetric in the sign. -/
def roundFloat (p : ℕ) (emin : ℤ) (x : ℚ) : ℚ :=
  if x < 0 then -roundPos p emin (-x) else roundPos p emin x

/-- Rounding to C `float` (binary32: 24 significand bits, least exponent -126). -/
def f32 (x : ℚ) : ℚ := roundFloat 24 (-126) x

/-- Rounding to C `double` (binary64: 53 significand bits, least exponent -1022). -/
def f64 (x : ℚ) : ℚ := roundFloat 53 (-1022) x

/-! ## Private functions -/

/-- The `mgos_sht31_cmd` function: `wr` is the answer of `mgos_i2c_write`. -/
def mgos_sht31_cmd (sensor : Option mgos_sht31) (cmd : Nat) (wr : Bool) : Bool × List Event :=
  match sensor with
  | none => (false, [])
  | some s =>
    match s.i2c with
    | none => (false, [])
    | some h =>
      let data := [(cmd >>> 8) % 256, cmd &&& 0xFF]
      if !wr then (false, [Event.i2c_write (some h) s.i2caddr data true])
      else (true, [Event.i2c_write (some h) s.i2caddr data true])

/-- One pass of the inner loop of `crc8`:
`crc = (crc & 0x80) ? (crc << 1) ^ poly : (crc << 1)`, stored into a `uint8_t`. -/
def crc8_shift (crc : Nat) : Nat :=
  if crc &&& 0x80 ≠ 0 then ((crc <<< 1) ^^^ 0x31) % 256 else (crc <<< 1) % 256

/-- The inner loop `for (int i = 8; i; --i)` of `crc8`. -/
def crc8_inner : Nat → Nat → Nat
  | 0, crc => crc
  | i + 1, crc => crc8_inner i (crc8_shift crc)

/-- The outer loop `for (int j = len; j; --j)` of `crc8`, from register value `crc`. -/
def crc8_outer : Nat → List Nat → Nat → Nat
  | 0, _, crc => crc
  | j + 1, data, crc =>
    crc8_outer j data.tail (crc8_inner 8 ((crc ^^^ (data.headD 0 % 256)) % 256))

/-- The `crc8` function, on the `len` bytes at the start of `data`. -/
def crc8 (data : List Nat) (len : Nat) : Nat := crc8_outer len data 0xFF

/-- The `mgos_sht31_status` function: `wr` answers the command write, `rd` is the answer of the
3-byte `mgos_i2c_read` (`none` when it fails, the received bytes otherwise). -/
def mgos_sht31_status (sensor : mgos_sht31) (wr : Bool) (rd : Option (List Nat)) :
    Nat × List Event :=
  let c := mgos_sht31_cmd (some sensor) MGOS_SHT31_READSTATUS wr
  let tr := c.2 ++ [Event.i2c_read sensor.i2c sensor.i2caddr 3 true]
  match rd with
  | none => (0, tr)
  | some data =>
    if byteAt data 2 ≠ crc8 data 2 then (0, tr)
    else (((byteAt data 0 <<< 8) + byteAt data 1) % 65536, tr)

/-! ## Public functions -/

/-- Collaborator answers consumed by one `mgos_sht31_read`. -/
structure ReadEnv where
  start : ℚ
  wr : Bool
  rd : Option (List Nat)
  finish : ℚ

/-- Outcome of one `mgos_sht31_read`: C return value, the record behind the pointer, trace. -/
structure ReadOut where
  ret : Bool
  sensor : Option mgos_sht31
  trace : List Event

/-- The `mgos_sht31_read` function.  `env.start` is the first `mg_time()`, `env.wr` the answer to
the trigger command write, `env.rd` the answer of the 6-byte read, `env.finish` the second
`mg_time()`.  The conversion is done in `float`: the integer count is converted and each of
`*=`, `/=`, `-=` rounds to binary32; the duration is accumulated in `double`. -/
def mgos_sht31_read (sensor : Option mgos_sht31) (env : ReadEnv) : ReadOut :=
  let start := env.start
  match sensor with
  | none => ⟨false, none, []⟩
  | some s0 =>
    match s0.i2c with
    | none => ⟨false, some s0, []⟩
    | some h =>
      let s1 := { s0 with stats := { s0.stats with read := (s0.stats.read + 1) % 2 ^ 32 } }
      if start - s1.stats.last_read_time < MGOS_SHT31_READ_DELAY then
        ⟨true, some { s1 with stats := { s1.stats with
            read_success_cached := (s1.stats.read_success_cached + 1) % 2 ^ 32 } }, []⟩
      else
        let c := mgos_sht31_cmd (some s1) MGOS_SHT31_MEAS_HIGHREP env.wr
        let tr := c.2 ++ [Event.usleep 15000, Event.i2c_read (some h) s1.i2caddr 6 true]
        match env.rd with
        | none => ⟨false, some s1, tr⟩
        | some data =>
          if byteAt data 2 ≠ crc8 data 2 ∨ byteAt data 5 ≠ crc8 (data.drop 3) 2 then
            ⟨false, some s1, tr⟩
          else
            let temperature : ℚ := f32 ((byteAt data 0 * 256 + byteAt data 1 : Nat) : ℚ)
            let temperature := f32 (temperature * 175)
            let temperature := f32 (temperature / 0xffff)
            let temperature := f32 (temperature - 45)
            let s2 := { s1 with temperature := temperature }
            let humidity : ℚ := f32 ((byteAt data 3 * 256 + byteAt data 4 : Nat) : ℚ)
            let humidity := f32 (humidity * 100)
            let humidity := f32 (humidity / 0xFFFF)
            let s3 := { s2 with humidity := humidity }
            let s4 := { s3 with stats := { s3.stats with
              read_success := (s3.stats.read_success + 1) % 2 ^ 32 } }
            let s5 := { s4 with stats := { s4.stats with
              read_success_usecs :=
                f64 (s4.stats.read_success_usecs + f64 (1000000 * f64 (env.finish - start))) } }
            let s6 := { s5 with stats := { s5.stats with last_read_time := start } }
            ⟨true, some s6, tr⟩

/-- Collaborator answers consumed by one `mgos_sht31_create`: whether `calloc` succeeds, then
the answers to the bus calls in program order. -/
structure CreateEnv where
  alloc : Bool
  wr_reset : Bool
  wr_status0 : Bool
  rd_status0 : Option (List Nat)
  wr_heateren : Bool
  wr_status1 : Bool
  rd_status1 : Option (List Nat)
  wr_heaterdis : Bool
  wr_status2 : Bool
  rd_status2 : Option (List Nat)

/-- The `mgos_sht31_create` function; the result is the returned pointer (`none` for `NULL`) and
the trace. -/
def mgos_sht31_create (i2c : Option Nat) (i2caddr : Nat) (env : CreateEnv) :
    Option mgos_sht31 × List Event :=
  match i2c with
  | none => (none, [])
  | some h =>
    if !env.alloc then (none, [])
    else
      let sensor : mgos_sht31 := ⟨none, 0, ⟨0, 0, 0, 0, 0⟩, 0, 0⟩
      let sensor := { sensor with i2caddr := i2caddr }
      let sensor := { sensor with i2c := some h }
      let c0 := mgos_sht31_cmd (some sensor) MGOS_SHT31_SOFTRESET env.wr_reset
      let status0 := mgos_sht31_status sensor env.wr_status0 env.rd_status0
      let c1 := mgos_sht31_cmd (some sensor) MGOS_SHT31_HEATEREN env.wr_heateren
      let status1 := mgos_sht31_status sensor env.wr_status1 env.rd_status1
      let c2 := mgos_sht31_cmd (some sensor) MGOS_SHT31_HEATERDIS env.wr_heaterdis
      let status2 := mgos_sht31_status sensor env.wr_status2 env.rd_status2
      let tr := c0.2 ++ status0.2 ++ c1.2 ++ status1.2 ++ c2.2 ++ status2.2
      if status0.1 &&& 0x2000 = 0 ∧ status1.1 &&& 0x2000 ≠ 0 ∧ status2.1 &&& 0x2000 = 0 then
        (some sensor, tr)
      else (none, tr)

/-- Outcome of an accessor: the returned `float` (`none` is `NAN`), the record behind the pointer,
the trace. -/
structure GetOut where
  value : Option ℚ
  sensor : Option mgos_sht31
  trace : List Event

/-- The `mgos_sht31_getTemperature` function.  After a true return of `mgos_sht31_read` the
pointer is not `NULL`, so `sensor->temperature` is the field of the record left by the read. -/
def mgos_sht31_getTemperature (sensor : Option mgos_sht31) (env : ReadEnv) : GetOut :=
  let r := mgos_sht31_read sensor env
  if !r.ret then ⟨none, r.sensor, r.trace⟩
  else ⟨r.sensor.map (fun s => s.temperature), r.sensor, r.trace⟩

/-- The `mgos_sht31_getHumidity` function. -/
def mgos_sht31_getHumidity (sensor : Option mgos_sht31) (env : ReadEnv) : GetOut :=
  let r := mgos_sht31_read sensor env
  if !r.ret then ⟨none, r.sensor, r.trace⟩
  else ⟨r.sensor.map (fun s => s.humidity), r.sensor, r.trace⟩

/-- Outcome of `mgos_sht31_getStats`: C return value, the record behind the device pointer, the
record behind the destination pointer. -/
structure StatsOut where
  ret : Bool
  sensor : Option mgos_sht31
  stats : Option mgos_sht31_stats

/-- The `mgos_sht31_getStats` function; `stats` is the destination (`none` for `NULL`, otherwise
its content before the call). -/
def mgos_sht31_getStats (sensor : Option mgos_sht31) (stats : Option mgos_sht31_stats) :
    StatsOut :=
  match sensor with
  | none => ⟨false, none, stats⟩
  | some s =>
    match stats with
    | none => ⟨false, some s, none⟩
    | some _ => ⟨true, some s, some s.stats⟩

/-! ## Vocabulary of the statements -/

/-- Trace of a cache miss: trigger command, conversion wait, 6-byte read. -/
def missTrace (h addr : Nat) : List Event :=
  [Event.i2c_write (some h) addr [0x24, 0x00] true, Event.usleep 15000,
   Event.i2c_read (some h) addr 6 true]

/-- Both checksums of a received 6-byte frame match (the negation of the test at line 151). -/
def frameValid (data : List Nat) : Prop :=
  byteAt data 2 = crc8 data 2 ∧ byteAt data 5 = crc8 (data.drop 3) 2

instance (data : List Nat) : Decidable (frameValid data) := by
  unfold frameValid; infer_instance

/-- The record of a freshly constructed device: the given bus handle and address, every counter,
time stamp and reading zero (`calloc` / `memset`). -/
def freshDevice (h addr : Nat) : mgos_sht31 := ⟨some h, addr, ⟨0, 0, 0, 0, 0⟩, 0, 0⟩

/-- Trace of one command write on bus `h` at address `addr`. -/
def cmdTrace (h addr hi lo : Nat) : Event := Event.i2c_write (some h) addr [hi, lo] true

/-- Trace of the self-test: soft reset, status, heater on, status, heater off, status. -/
def selfTestTrace (h addr : Nat) : List Event :=
  [cmdTrace h addr 0x30 0xA2,
   cmdTrace h addr 0xF3 0x2D, Event.i2c_read (some h) addr 3 true,
   cmdTrace h addr 0x30 0x6D,
   cmdTrace h addr 0xF3 0x2D, Event.i2c_read (some h) addr 3 true,
   cmdTrace h addr 0x30 0x66,
   cmdTrace h addr 0xF3 0x2D, Event.i2c_read (some h) addr 3 true]

/-- The record behind the device pointer after a finite sequence of `mgos_sht31_read` calls, one
`ReadEnv` per call. -/
def reads (sensor : Option mgos_sht31) : List ReadEnv → Option mgos_sht31
  | [] => sensor
  | env :: envs => reads (mgos_sht31_read sensor env).sensor envs

/-- The outcomes of the calls of a run, in call order. -/
def outcomes (sensor : Option mgos_sht31) : List ReadEnv → List ReadOut
  | [] => []
  | env :: envs =>
    mgos_sht31_read sensor env :: outcomes (mgos_sht31_read sensor env).sensor envs

/-- A call that returned false. -/
def isFailure (o : ReadOut) : Bool := !o.ret

/-- A call served from the cache: a true return without any collaborator call. -/
def isCached (o : ReadOut) : Bool := o.ret && o.trace.isEmpty

/-- A successful fresh read: a true return after a bus transaction. -/
def isFresh (o : ReadOut) : Bool := o.ret && !o.trace.isEmpty

/-! ## Polynomials over GF(2) -/

/-- The polynomial over GF(2) of a byte: bit `i` is the coefficient of `x^i`. -/
noncomputable def bytePoly (b : Nat) : Polynomial (ZMod 2) :=
  ∑ i ∈ Finset.range 8, if b.testBit i then (Polynomial.X : Polynomial (ZMod 2)) ^ i else 0

/-- The generator polynomial G(x) = x^8 + x^5 + x^4 + 1 (polynomial 0x31 with the leading term). -/
noncomputable def crcGen : Polynomial (ZMod 2) :=
  Polynomial.X ^ 8 + Polynomial.X ^ 5 + Polynomial.X ^ 4 + 1

/-- The message polynomial M(x): the bytes read most significant first, so that the first byte
carries the highest powers and a message of `n` bytes has degree below `8 * n`. -/
noncomputable def msgPoly : List Nat → Polynomial (ZMod 2)
  | [] => 0
  | b :: rest => bytePoly b * Polynomial.X ^ (8 * rest.length) + msgPoly rest

/-- The remainder the checksum is specified to be: M(x) * x^8 + 0xFF(x) * x^(8n) modulo G(x),
for a message of `n` bytes. -/
noncomputable def crcRemainder (data : List Nat) : Polynomial (ZMod 2) :=
  (msgPoly data * Polynomial.X ^ 8 + bytePoly 0xFF * Polynomial.X ^ (8 * data.length))
    %ₘ crcGen

/-- Congruence of polynomials modulo the generator. -/
def PolyCong (p q : Polynomial (ZMod 2)) : Prop := crcGen ∣ p - q

/-- Inverse of one pass of the inner loop of `crc8` on bytes: undo the conditional XOR with the
polynomial, shift right and restore the bit that was shifted out. -/
def crc8_unshift (crc : Nat) : Nat :=
  if crc &&& 1 ≠ 0 then ((crc ^^^ 0x31) >>> 1) ||| 0x80 else crc >>> 1

/-- Flip one bit of a group of bytes: bit `k % 8` of the byte at position `k / 8`. -/
def flipBit : List Nat → Nat → List Nat
  | [], _ => []
  | b :: rest, k => if k < 8 then (b ^^^ 2 ^ k) :: rest else b :: flipBit rest (k - 8)

/-- The temperature `mgos_sht31_read` stores for the raw count `r`: the `float` statements of
lines 155 to 158. -/
def convTemperature (r : ℕ) : ℚ := f32 (f32 (f32 (f32 (r : ℚ) * 175) / 0xffff) - 45)

/-- The humidity `mgos_sht31_read` stores for the raw count `r`: the `float` statements of
lines 161 to 163. -/
def convHumidity (r : ℕ) : ℚ := f32 (f32 (f32 (r : ℚ) * 100) / 0xFFFF)

/-- The duration counter after a successful fresh read: the `double` statement of line 168. -/
def addUsecs (usecs start finish : ℚ) : ℚ := f64 (usecs + f64 (1000000 * f64 (finish - start)))

/-! ## Concrete inputs -/

/-- A device as `mgos_sht31_create` returns it: bus 1, address 0x44, everything else zero. -/
def dev0 : mgos_sht31 := ⟨some 1, 0x44, ⟨0, 0, 0, 0, 0⟩, 0, 0⟩

/-- A frame with raw temperature 0 and raw humidity 0xFFFF, both checksums right. -/
def frameGood : List Nat := [0x00, 0x00, 0x81, 0xFF, 0xFF, 0xAC]

/-- The frame `frameGood` with the humidity checksum corrupted. -/
def frameBad : List Nat := [0x00, 0x00, 0x81, 0xFF, 0xFF, 0xAD]

/-- A call one second after the epoch; the bus would fail if asked. -/
def envEarly : ReadEnv := ⟨1, false, none, 1⟩

/-- A call at time 10 where the trigger write fails and the bus read delivers `frameGood`. -/
def envWriteFails : ReadEnv := ⟨10, false, some frameGood, 11⟩

/-- A call at time 10 where the bus read delivers `frameBad`. -/
def envBadCrc : ReadEnv := ⟨10, true, some frameBad, 11⟩

/-- A call at time 10 where the bus read fails. -/
def envReadFails : ReadEnv := ⟨10, true, none, 11⟩

/-- A call at time 10 where everything works and the bus read delivers `frameGood`. -/
def envGood : ReadEnv := ⟨10, true, some frameGood, 11⟩

/-- The 6-byte frame the sensor sends for raw temperature `rt` and raw humidity `rh`: each
16-bit count most significant byte first, followed by its checksum. -/
def frameOf (rt rh : Nat) : List Nat :=
  [rt / 256, rt % 256, crc8 [rt / 256, rt % 256] 2,
   rh / 256, rh % 256, crc8 [rh / 256, rh % 256] 2]

/-- Status frame of a sensor whose heater is off (status word 0x0000). -/
def statusHeaterOff : List Nat := [0x00, 0x00, 0x81]

/-- Status frame of a sensor whose heater is on (status word 0x2000). -/
def statusHeaterOn : List Nat := [0x20, 0x00, 0x5D]

/-- A construction on a responsive sensor: the three status reads show heater off, on, off. -/
def envCreateOk : CreateEnv :=
  ⟨true, true, true, some statusHeaterOff, true, true, some statusHeaterOn, true, true,
    some statusHeaterOff⟩

/-- A call at time 2 where the bus read fails. -/
def envFailAt2 : ReadEnv := ⟨2, true, none, 2⟩

/-- A call at time 3 that reads `frameGood` and returns at time 4. -/
def envGoodAt3 : ReadEnv := ⟨3, true, some frameGood, 4⟩

/-- A call at time 4. -/
def envAt4 : ReadEnv := ⟨4, true, none, 4⟩

/-- A run of 2^32 calls: a failed read, a successful fresh read, then 2^32 - 2 calls within the
cache window. -/
def longRun : List ReadEnv := envFailAt2 :: envGoodAt3 :: List.replicate 4294967294 envAt4

/-- The record `longRun` leaves behind: `read` has wrapped to 0. -/
def wrapState : mgos_sht31 := ⟨some 1, 0x44, ⟨3, 0, 1, 4294967294, 1000000⟩, 100, -45⟩

/-- A construction where no device answers: every bus write and every bus read fails. -/
def envCreateAbsent : CreateEnv :=
  ⟨true, false, false, none, false, false, none, false, false, none⟩

/-- The record of `dev0` after 2^32 - 1 calls served from the cache: `read` and
`read_success_cached` both hold the largest `uint32_t` value. -/
def devMax : mgos_sht31 := ⟨some 1, 0x44, ⟨0, 4294967295, 0, 4294967295, 0⟩, 0, 0⟩

/-- A call at time 2 that reads `frameGood` and returns at time 3. -/
def envGoodAt2 : ReadEnv := ⟨2, true, some frameGood, 3⟩

/-- A call at time 3. -/
def envAt3 : ReadEnv := ⟨3, true, none, 3⟩

/-- A call at time 2 that reads the frame of raw temperature 1 and raw humidity 1 and returns at
time 3. -/
def envOneAt2 : ReadEnv := ⟨2, true, some (frameOf 1 1), 3⟩

/-- A call at time 10 that reads the frame of raw temperature 1 and raw humidity 1 and returns at
time 11. -/
def envOneAt10 : ReadEnv := ⟨10, true, some (frameOf 1 1), 11⟩

/-! ## Rounding -/

theorem roundEven_bounds (y : ℚ) : ⌊y⌋ ≤ roundEven y ∧ roundEven y ≤ ⌊y⌋ + 1 := by
  unfold roundEven
  split_ifs <;> constructor <;> omega

theorem roundEven_intCast (k : ℤ) : roundEven (k : ℚ) = k := by
  unfold roundEven
  simp

theorem roundEven_mono {y z : ℚ} (h : y ≤ z) : roundEven y ≤ roundEven z := by
  have hf : ⌊y⌋ ≤ ⌊z⌋ := Int.floor_mono h
  rcases lt_or_eq_of_le hf with hlt | heq
  · exact le_trans (roundEven_bounds y).2 (le_trans (by omega) (roundEven_bounds z).1)
  · have hfr : Int.fract y ≤ Int.fract z := by
      unfold Int.fract
      rw [heq]
      linarith
    unfold roundEven
    rw [heq]
    split_ifs <;> first | omega | (exfalso; linarith)

theorem roundEven_abs_sub_le (y : ℚ) : |(roundEven y : ℚ) - y| ≤ 1 / 2 := by
  have h0 := Int.fract_nonneg y
  have h1 := Int.fract_lt_one y
  have hy : y = ⌊y⌋ + Int.fract y := (Int.floor_add_fract y).symm
  unfold roundEven
  rw [abs_le]
  split_ifs <;> push_cast <;> constructor <;> linarith

theorem roundEven_eq_of_abs_lt (y : ℚ) (k : ℤ) (h : |y - k| < 1 / 2) : roundEven y = k := by
  have hb := roundEven_abs_sub_le y
  rw [abs_lt] at h
  rw [abs_le] at hb
  have h1 : ((roundEven y : ℤ) : ℚ) - k < 1 := by linarith [h.1, h.2, hb.1, hb.2]
  have h2 : (-1 : ℚ) < ((roundEven y : ℤ) : ℚ) - k := by linarith [h.1, h.2, hb.1, hb.2]
  have h1' : roundEven y - k < 1 := by exact_mod_cast h1
  have h2' : -1 < roundEven y - k := by exact_mod_cast h2
  omega

theorem log_eq_of_bounds {x : ℚ} {e : ℤ} (hx : 0 < x) (h1 : (2 : ℚ) ^ e ≤ x)
    (h2 : x < (2 : ℚ) ^ (e + 1)) : Int.log 2 x = e := by
  have a1 : e ≤ Int.log 2 x := by
    rw [← Int.zpow_le_iff_le_log (by norm_num) hx]
    exact_mod_cast h1
  have a2 : Int.log 2 x < e + 1 := by
    rw [← Int.lt_zpow_iff_log_lt (by norm_num) hx]
    exact_mod_cast h2
  omega

theorem log_bounds {x : ℚ} (hx : 0 < x) :
    (2 : ℚ) ^ (Int.log 2 x) ≤ x ∧ x < (2 : ℚ) ^ (Int.log 2 x + 1) := by
  have h1 := Int.zpow_log_le_self (b := 2) (r := x) (by norm_num) hx
  have h2 := Int.lt_zpow_succ_log_self (b := 2) (by norm_num) x
  exact ⟨by exact_mod_cast h1, by exact_mod_cast h2⟩

theorem roundPos_zero (p : ℕ) (emin : ℤ) : roundPos p emin 0 = 0 := by
  unfold roundPos
  rw [zero_div]
  have : roundEven 0 = 0 := by exact_mod_cast roundEven_intCast 0
  rw [this]
  simp

theorem roundPos_nonneg (p : ℕ) (emin : ℤ) {x : ℚ} (hx : 0 ≤ x) : 0 ≤ roundPos p emin x := by
  unfold roundPos
  have hu : (0 : ℚ) < 2 ^ (binade emin x - ((p : ℤ) - 1)) := by positivity
  have h0 : roundEven 0 ≤ roundEven (x / 2 ^ (binade emin x - ((p : ℤ) - 1))) :=
    roundEven_mono (div_nonneg hx hu.le)
  have h00 : roundEven 0 = 0 := by exact_mod_cast roundEven_intCast 0
  rw [h00] at h0
  have : (0 : ℚ) ≤ (roundEven (x / 2 ^ (binade emin x - ((p : ℤ) - 1))) : ℚ) := by
    exact_mod_cast h0
  positivity

/-- Half an ulp bounds the rounding error. -/
theorem roundPos_error (p : ℕ) (emin : ℤ) (x : ℚ) :
    |roundPos p emin x - x| ≤ 2 ^ (binade emin x - ((p : ℤ) - 1)) / 2 := by
  unfold roundPos
  have hu : (0 : ℚ) < 2 ^ (binade emin x - ((p : ℤ) - 1)) := by positivity
  have hb := roundEven_abs_sub_le (x / 2 ^ (binade emin x - ((p : ℤ) - 1)))
  have e : (roundEven (x / 2 ^ (binade emin x - ((p : ℤ) - 1))) : ℚ)
        * 2 ^ (binade emin x - ((p : ℤ) - 1)) - x
      = ((roundEven (x / 2 ^ (binade emin x - ((p : ℤ) - 1))) : ℚ)
          - x / 2 ^ (binade emin x - ((p : ℤ) - 1))) * 2 ^ (binade emin x - ((p : ℤ) - 1)) := by
    field_simp
  rw [e, abs_mul, abs_of_pos hu]
  calc _ ≤ 1 / 2 * 2 ^ (binade emin x - ((p : ℤ) - 1)) :=
        mul_le_mul_of_nonneg_right hb hu.le
    _ = _ := by ring

/-- Evaluation of the rounding from the binade and the nearest integer. -/
theorem roundPos_eq_of (p : ℕ) (emin e : ℤ) (x : ℚ) (k : ℤ) (hx : 0 < x)
    (h1 : (2 : ℚ) ^ e ≤ x) (h2 : x < (2 : ℚ) ^ (e + 1)) (hemin : emin ≤ e)
    (hk : |x / 2 ^ (e - ((p : ℤ) - 1)) - k| < 1 / 2) :
    roundPos p emin x = k * 2 ^ (e - ((p : ℤ) - 1)) := by
  have hb : binade emin x = e := by
    unfold binade
    rw [log_eq_of_bounds hx h1 h2]
    exact max_eq_left hemin
  unfold roundPos
  rw [hb, roundEven_eq_of_abs_lt _ k hk]

theorem roundPos_natCast (p : ℕ) (emin : ℤ) (n : ℕ) (hn : n < 2 ^ p) (hemin : emin ≤ 0) :
    roundPos p emin (n : ℚ) = n := by
  rcases Nat.eq_zero_or_pos n with rfl | hpos
  · simpa using roundPos_zero p emin
  · have hx : (0 : ℚ) < n := by exact_mod_cast hpos
    obtain ⟨h1, h2⟩ := log_bounds hx
    have he0 : 0 ≤ Int.log 2 (n : ℚ) := by
      rw [← Int.zpow_le_iff_le_log (by norm_num) hx]
      simp only [zpow_zero]
      exact_mod_cast hpos
    have hep : Int.log 2 (n : ℚ) < p := by
      rw [← Int.lt_zpow_iff_log_lt (by norm_num) hx]
      exact_mod_cast hn
    obtain ⟨m, hm⟩ : ∃ m : ℕ, (m : ℤ) = (p : ℤ) - 1 - Int.log 2 (n : ℚ) :=
      ⟨((p : ℤ) - 1 - Int.log 2 (n : ℚ)).toNat, Int.toNat_of_nonneg (by omega)⟩
    have hexp : Int.log 2 (n : ℚ) - ((p : ℤ) - 1) = -(m : ℤ) := by omega
    have hpow : (2 : ℚ) ^ (Int.log 2 (n : ℚ) - ((p : ℤ) - 1)) = ((2 : ℚ) ^ m)⁻¹ := by
      rw [hexp, zpow_neg, zpow_natCast]
    have hk : (n : ℚ) / 2 ^ (Int.log 2 (n : ℚ) - ((p : ℤ) - 1))
        = (((n * 2 ^ m : ℕ) : ℤ) : ℚ) := by
      rw [hpow]
      push_cast
      field_simp
    rw [roundPos_eq_of p emin (Int.log 2 (n : ℚ)) n ((n * 2 ^ m : ℕ) : ℤ) hx h1 h2 (by omega)
      (by rw [hk]; simp), hpow]
    push_cast
    field_simp

/-- A rounded value stays within the closed binade of its argument. -/
theorem roundPos_le_pow (p : ℕ) (emin : ℤ) {x : ℚ} (hx : 0 ≤ x) :
    roundPos p emin x ≤ 2 ^ (binade emin x + 1) := by
  have hu : (0 : ℚ) < 2 ^ (binade emin x - ((p : ℤ) - 1)) := by positivity
  have hxlt : x < 2 ^ (binade emin x + 1) := by
    rcases eq_or_lt_of_le hx with h0 | hpos
    · rw [← h0]; positivity
    · refine lt_of_lt_of_le (log_bounds hpos).2 ?_
      exact zpow_le_zpow_right₀ (by norm_num) (by unfold binade; omega)
  have hsplit : (2 : ℚ) ^ (binade emin x + 1)
      = ((2 ^ p : ℕ) : ℤ) * 2 ^ (binade emin x - ((p : ℤ) - 1)) := by
    push_cast
    rw [← zpow_natCast, ← zpow_add₀ (by norm_num)]
    congr 1
    omega
  have hq : x / 2 ^ (binade emin x - ((p : ℤ) - 1)) ≤ (((2 ^ p : ℕ) : ℤ) : ℚ) := by
    rw [div_le_iff₀ hu, ← hsplit]
    exact hxlt.le
  have hr := roundEven_mono hq
  rw [roundEven_intCast] at hr
  unfold roundPos
  rw [hsplit]
  exact mul_le_mul_of_nonneg_right (by exact_mod_cast hr) hu.le

theorem pow_le_roundPos (p : ℕ) (emin : ℤ) {x : ℚ} (hp : 1 ≤ p) (hx : 0 < x)
    (hnormal : emin ≤ Int.log 2 x) : 2 ^ (binade emin x) ≤ roundPos p emin x := by
  have hb : binade emin x = Int.log 2 x := max_eq_left hnormal
  have hu : (0 : ℚ) < 2 ^ (binade emin x - ((p : ℤ) - 1)) := by positivity
  have hsplit : (2 : ℚ) ^ (binade emin x)
      = ((2 ^ (p - 1) : ℕ) : ℤ) * 2 ^ (binade emin x - ((p : ℤ) - 1)) := by
    push_cast
    rw [← zpow_natCast, ← zpow_add₀ (by norm_num)]
    congr 1
    omega
  have hq : (((2 ^ (p - 1) : ℕ) : ℤ) : ℚ) ≤ x / 2 ^ (binade emin x - ((p : ℤ) - 1)) := by
    rw [le_div_iff₀ hu, ← hsplit, hb]
    exact (log_bounds hx).1
  have hr := roundEven_mono hq
  rw [roundEven_intCast] at hr
  unfold roundPos
  rw [hsplit]
  exact mul_le_mul_of_nonneg_right (by exact_mod_cast hr) hu.le

theorem binade_mono (emin : ℤ) {x y : ℚ} (hx : 0 < x) (hxy : x ≤ y) :
    binade emin x ≤ binade emin y :=
  max_le_max (Int.log_mono_right hx hxy) le_rfl

theorem roundPos_mono (p : ℕ) (emin : ℤ) {x y : ℚ} (hp : 1 ≤ p) (hx : 0 ≤ x) (hxy : x ≤ y) :
    roundPos p emin x ≤ roundPos p emin y := by
  rcases eq_or_lt_of_le hx with h0 | hpos
  · rw [← h0, roundPos_zero]
    exact roundPos_nonneg p emin (le_trans hx hxy)
  · have hy : 0 < y := lt_of_lt_of_le hpos hxy
    rcases eq_or_lt_of_le (binade_mono emin hpos hxy) with heq | hlt
    · unfold roundPos
      rw [heq]
      have hu : (0 : ℚ) < 2 ^ (binade emin y - ((p : ℤ) - 1)) := by positivity
      have hq : x / 2 ^ (binade emin y - ((p : ℤ) - 1))
          ≤ y / 2 ^ (binade emin y - ((p : ℤ) - 1)) :=
        div_le_div_of_nonneg_right hxy hu.le
      exact mul_le_mul_of_nonneg_right (by exact_mod_cast roundEven_mono hq) hu.le
    · have hnormal : emin ≤ Int.log 2 y := by
        by_contra hcon
        have : binade emin y = emin := max_eq_right (by omega)
        have : emin ≤ binade emin x := le_max_right _ _
        omega
      calc roundPos p emin x ≤ 2 ^ (binade emin x + 1) := roundPos_le_pow p emin hx
        _ ≤ 2 ^ (binade emin y) := zpow_le_zpow_right₀ (by norm_num) (by omega)
        _ ≤ roundPos p emin y := pow_le_roundPos p emin hp hy hnormal

theorem roundFloat_mono (p : ℕ) (emin : ℤ) {x y : ℚ} (hp : 1 ≤ p) (hxy : x ≤ y) :
    roundFloat p emin x ≤ roundFloat p emin y := by
  unfold roundFloat
  by_cases hx : x < 0
  · by_cases hy : y < 0
    · rw [if_pos hx, if_pos hy]
      exact neg_le_neg (roundPos_mono p emin hp (by linarith) (by linarith))
    · rw [if_pos hx, if_neg hy]
      have h1 := roundPos_nonneg p emin (x := -x) (by linarith)
      have h2 := roundPos_nonneg p emin (x := y) (by linarith)
      linarith
  · have hy : ¬ y < 0 := by linarith
    rw [if_neg hx, if_neg hy]
    exact roundPos_mono p emin hp (by linarith) hxy

theorem roundFloat_natCast (p : ℕ) (emin : ℤ) (n : ℕ) (hn : n < 2 ^ p) (hemin : emin ≤ 0) :
    roundFloat p emin (n : ℚ) = n := by
  unfold roundFloat
  rw [if_neg (by simp), roundPos_natCast p emin n hn hemin]

theorem roundFloat_neg_natCast (p : ℕ) (emin : ℤ) (n : ℕ) (hn : n < 2 ^ p) (hemin : emin ≤ 0) :
    roundFloat p emin (-(n : ℚ)) = -(n : ℚ) := by
  rcases Nat.eq_zero_or_pos n with rfl | hpos
  · simpa using roundFloat_natCast p emin 0 (by positivity) hemin
  · unfold roundFloat
    have : -(n : ℚ) < 0 := by
      have : (0 : ℚ) < n := by exact_mod_cast hpos
      linarith
    rw [if_pos this, neg_neg, roundPos_natCast p emin n hn hemin]

theorem roundFloat_error (p : ℕ) (emin : ℤ) (x : ℚ) :
    |roundFloat p emin x - x| ≤ 2 ^ (binade emin |x| - ((p : ℤ) - 1)) / 2 := by
  unfold roundFloat
  by_cases hx : x < 0
  · rw [if_pos hx, abs_of_neg hx]
    have h := roundPos_error p emin (-x)
    have e : -roundPos p emin (-x) - x = -(roundPos p emin (-x) - -x) := by ring
    rw [e, abs_neg]
    exact h
  · rw [if_neg hx, abs_of_nonneg (not_lt.mp hx)]
    exact roundPos_error p emin x

/-- In binary32, a value of magnitude below 256 is rounded with an error of at most 2^-17. -/
theorem f32_error {x : ℚ} (hx : |x| < 256) : |f32 x - x| ≤ 1 / 131072 := by
  have hb : binade (-126) |x| ≤ 7 := by
    unfold binade
    apply max_le _ (by norm_num)
    rcases eq_or_lt_of_le (abs_nonneg x) with h0 | hpos
    · rw [← h0, Int.log_zero_right]; norm_num
    · have : Int.log 2 |x| < 8 := by
        rw [← Int.lt_zpow_iff_log_lt (by norm_num) hpos]
        norm_num
        exact hx
      omega
  refine le_trans (roundFloat_error 24 (-126) x) ?_
  have : (2 : ℚ) ^ (binade (-126) |x| - (((24 : ℕ) : ℤ) - 1)) ≤ 2 ^ ((7 : ℤ) - (((24 : ℕ) : ℤ) - 1)) :=
    zpow_le_zpow_right₀ (by norm_num) (by omega)
  have e : (2 : ℚ) ^ ((7 : ℤ) - (((24 : ℕ) : ℤ) - 1)) = 1 / 65536 := by norm_num
  rw [e] at this
  linarith

theorem f32_mono {x y : ℚ} (hxy : x ≤ y) : f32 x ≤ f32 y :=
  roundFloat_mono 24 (-126) (by norm_num) hxy

theorem f32_natCast (n : ℕ) (hn : n < 16777216) : f32 (n : ℚ) = n :=
  roundFloat_natCast 24 (-126) n (by norm_num; exact hn) (by norm_num)

theorem f32_neg_natCast (n : ℕ) (hn : n < 16777216) : f32 (-(n : ℚ)) = -(n : ℚ) :=
  roundFloat_neg_natCast 24 (-126) n (by norm_num; exact hn) (by norm_num)

theorem f64_natCast (n : ℕ) (hn : n < 9007199254740992) : f64 (n : ℚ) = n :=
  roundFloat_natCast 53 (-1022) n (by norm_num; exact hn) (by norm_num)

theorem f32_eq_of_pos (e : ℤ) (x : ℚ) (k : ℤ) (hx : 0 < x)
    (h1 : (2 : ℚ) ^ e ≤ x) (h2 : x < (2 : ℚ) ^ (e + 1)) (hemin : -126 ≤ e)
    (hk : |x / 2 ^ (e - 23) - k| < 1 / 2) : f32 x = k * 2 ^ (e - 23) := by
  unfold f32 roundFloat
  rw [if_neg (by linarith)]
  exact roundPos_eq_of 24 (-126) e x k hx h1 h2 hemin (by simpa using hk)

theorem f32_eq_of_neg (e : ℤ) (x : ℚ) (k : ℤ) (hx : x < 0)
    (h1 : (2 : ℚ) ^ e ≤ -x) (h2 : -x < (2 : ℚ) ^ (e + 1)) (hemin : -126 ≤ e)
    (hk : |-x / 2 ^ (e - 23) - k| < 1 / 2) : f32 x = -(k * 2 ^ (e - 23)) := by
  unfold f32 roundFloat
  rw [if_pos hx]
  rw [roundPos_eq_of 24 (-126) e (-x) k (by linarith) h1 h2 hemin (by simpa using hk)]
  norm_num

theorem convTemperature_one : convTemperature 1 = -2948945 / 65536 := by
  unfold convTemperature
  rw [f32_natCast 1 (by norm_num)]
  have h175 : f32 (((1 : ℕ) : ℚ) * 175) = 175 := by
    have := f32_natCast 175 (by norm_num)
    norm_num at this ⊢
    exact this
  rw [h175]
  have ha : f32 (175 / 0xffff) = 11468975 / 4294967296 := by
    rw [f32_eq_of_pos (-9) (175 / 0xffff) 11468975 (by norm_num) (by norm_num) (by norm_num)
      (by norm_num) (by rw [abs_lt]; constructor <;> norm_num)]
    norm_num
  rw [ha]
  rw [f32_eq_of_neg 5 (11468975 / 4294967296 - 45) 11795780 (by norm_num) (by norm_num)
    (by norm_num) (by norm_num) (by rw [abs_lt]; constructor <;> norm_num)]
  norm_num

theorem convHumidity_one : convHumidity 1 = 1638425 / 1073741824 := by
  unfold convHumidity
  rw [f32_natCast 1 (by norm_num)]
  have h100 : f32 (((1 : ℕ) : ℚ) * 100) = 100 := by
    have := f32_natCast 100 (by norm_num)
    norm_num at this ⊢
    exact this
  rw [h100]
  rw [f32_eq_of_pos (-10) (100 / 0xffff) 13107400 (by norm_num) (by norm_num) (by norm_num)
    (by norm_num) (by rw [abs_lt]; constructor <;> norm_num)]
  norm_num

/-- The conversions, with the two exact steps removed. -/
theorem convTemperature_eq (r : ℕ) (hr : r ≤ 65535) :
    convTemperature r = f32 (f32 ((r : ℚ) * 175 / 65535) - 45) := by
  unfold convTemperature
  rw [f32_natCast r (by omega)]
  have h : f32 ((r : ℚ) * 175) = (r : ℚ) * 175 := by
    have := f32_natCast (r * 175) (by omega)
    push_cast at this
    exact this
  rw [h]

theorem convHumidity_eq (r : ℕ) (hr : r ≤ 65535) :
    convHumidity r = f32 ((r : ℚ) * 100 / 65535) := by
  unfold convHumidity
  rw [f32_natCast r (by omega)]
  have h : f32 ((r : ℚ) * 100) = (r : ℚ) * 100 := by
    have := f32_natCast (r * 100) (by omega)
    push_cast at this
    exact this
  rw [h]

theorem f32_zero : f32 0 = 0 := by
  simpa using f32_natCast 0 (by norm_num)

theorem f32_175 : f32 175 = 175 := by
  simpa using f32_natCast 175 (by norm_num)

theorem f32_100 : f32 100 = 100 := by
  simpa using f32_natCast 100 (by norm_num)

theorem f32_130 : f32 130 = 130 := by
  simpa using f32_natCast 130 (by norm_num)

theorem f32_neg45 : f32 (-45) = -45 := by
  simpa using f32_neg_natCast 45 (by norm_num)

theorem quotT_range (r : ℕ) (hr : r ≤ 65535) :
    (0 : ℚ) ≤ (r : ℚ) * 175 / 65535 ∧ (r : ℚ) * 175 / 65535 ≤ 175 := by
  have h0 : (0 : ℚ) ≤ r := Nat.cast_nonneg r
  have h1 : (r : ℚ) ≤ 65535 := by exact_mod_cast hr
  constructor
  · exact div_nonneg (mul_nonneg h0 (by norm_num)) (by norm_num)
  · rw [div_le_iff₀ (by norm_num)]; linarith

theorem quotH_range (r : ℕ) (hr : r ≤ 65535) :
    (0 : ℚ) ≤ (r : ℚ) * 100 / 65535 ∧ (r : ℚ) * 100 / 65535 ≤ 100 := by
  have h0 : (0 : ℚ) ≤ r := Nat.cast_nonneg r
  have h1 : (r : ℚ) ≤ 65535 := by exact_mod_cast hr
  constructor
  · exact div_nonneg (mul_nonneg h0 (by norm_num)) (by norm_num)
  · rw [div_le_iff₀ (by norm_num)]; linarith

theorem f32_quotT_range (r : ℕ) (hr : r ≤ 65535) :
    0 ≤ f32 ((r : ℚ) * 175 / 65535) ∧ f32 ((r : ℚ) * 175 / 65535) ≤ 175 := by
  obtain ⟨h0, h1⟩ := quotT_range r hr
  constructor
  · have := f32_mono h0; rwa [f32_zero] at this
  · have := f32_mono h1; rwa [f32_175] at this

theorem convTemperature_bounds (r : ℕ) (hr : r ≤ 65535) : -45 ≤ convTemperature r ∧ convTemperature r ≤ 130 := by
  rw [convTemperature_eq r hr]
  obtain ⟨h0, h1⟩ := f32_quotT_range r hr
  constructor
  · have := f32_mono (show (-45 : ℚ) ≤ f32 ((r : ℚ) * 175 / 65535) - 45 by linarith)
    rwa [f32_neg45] at this
  · have := f32_mono (show f32 ((r : ℚ) * 175 / 65535) - 45 ≤ (130 : ℚ) by linarith)
    rwa [f32_130] at this

theorem convHumidity_bounds (r : ℕ) (hr : r ≤ 65535) : 0 ≤ convHumidity r ∧ convHumidity r ≤ 100 := by
  rw [convHumidity_eq r hr]
  obtain ⟨h0, h1⟩ := quotH_range r hr
  constructor
  · have := f32_mono h0; rwa [f32_zero] at this
  · have := f32_mono h1; rwa [f32_100] at this

/-- The stored temperature is within 2^-16 of the exact transfer function. -/
theorem convTemperature_error (r : ℕ) (hr : r ≤ 65535) :
    |convTemperature r - ((r : ℚ) * 175 / 65535 - 45)| ≤ 1 / 65536 := by
  rw [convTemperature_eq r hr]
  obtain ⟨h0, h1⟩ := quotT_range r hr
  obtain ⟨g0, g1⟩ := f32_quotT_range r hr
  have e1 := f32_error (x := (r : ℚ) * 175 / 65535) (by rw [abs_lt]; constructor <;> linarith)
  have e2 := f32_error (x := f32 ((r : ℚ) * 175 / 65535) - 45)
    (by rw [abs_lt]; constructor <;> linarith)
  rw [abs_le] at e1 e2 ⊢
  constructor <;> linarith [e1.1, e1.2, e2.1, e2.2]

/-- The stored humidity is within 2^-17 of the exact transfer function. -/
theorem convHumidity_error (r : ℕ) (hr : r ≤ 65535) :
    |convHumidity r - (r : ℚ) * 100 / 65535| ≤ 1 / 131072 := by
  rw [convHumidity_eq r hr]
  obtain ⟨h0, h1⟩ := quotH_range r hr
  exact f32_error (by rw [abs_lt]; constructor <;> linarith)

theorem convTemperature_strict (r1 r2 : ℕ) (hlt : r1 < r2) (hr : r2 ≤ 65535) : convTemperature r1 < convTemperature r2 := by
  have e1 := convTemperature_error r1 (by omega)
  have e2 := convTemperature_error r2 hr
  rw [abs_le] at e1 e2
  have hq : (r1 : ℚ) + 1 ≤ r2 := by exact_mod_cast hlt
  have hstep : (r1 : ℚ) * 175 / 65535 + 175 / 65535 ≤ (r2 : ℚ) * 175 / 65535 := by
    rw [← add_div, div_le_div_iff_of_pos_right (by norm_num)]
    linarith
  have : (1 : ℚ) / 65536 + 1 / 65536 < 175 / 65535 := by norm_num
  linarith [e1.1, e1.2, e2.1, e2.2]

theorem convHumidity_strict (r1 r2 : ℕ) (hlt : r1 < r2) (hr : r2 ≤ 65535) : convHumidity r1 < convHumidity r2 := by
  have e1 := convHumidity_error r1 (by omega)
  have e2 := convHumidity_error r2 hr
  rw [abs_le] at e1 e2
  have hq : (r1 : ℚ) + 1 ≤ r2 := by exact_mod_cast hlt
  have hstep : (r1 : ℚ) * 100 / 65535 + 100 / 65535 ≤ (r2 : ℚ) * 100 / 65535 := by
    rw [← add_div, div_le_div_iff_of_pos_right (by norm_num)]
    linarith
  have : (1 : ℚ) / 131072 + 1 / 131072 < 100 / 65535 := by norm_num
  linarith [e1.1, e1.2, e2.1, e2.2]

theorem convTemperature_endpoints : convTemperature 0 = -45 ∧ convTemperature 65535 = 130 := by
  constructor
  · rw [convTemperature_eq 0 (by norm_num)]
    norm_num
    rw [f32_zero]
    norm_num
    exact f32_neg45
  · rw [convTemperature_eq 65535 (by norm_num)]
    norm_num
    rw [f32_175]
    norm_num
    exact f32_130

theorem convHumidity_endpoints : convHumidity 0 = 0 ∧ convHumidity 65535 = 100 := by
  constructor
  · rw [convHumidity_eq 0 (by norm_num)]
    norm_num
    exact f32_zero
  · rw [convHumidity_eq 65535 (by norm_num)]
    norm_num
    exact f32_100

/-! ## Branches of `mgos_sht31_read` -/

theorem cmd_consts : [(MGOS_SHT31_MEAS_HIGHREP >>> 8) % 256, MGOS_SHT31_MEAS_HIGHREP &&& 0xFF] = [0x24, 0x00] := by
  decide

theorem read_hit_eq (s : mgos_sht31) (h : Nat) (env : ReadEnv) (hbus : s.i2c = some h)
    (hnow : env.start - s.stats.last_read_time < 2) :
    mgos_sht31_read (some s) env =
      ⟨true, some { s with stats := { s.stats with
          read := (s.stats.read + 1) % 2 ^ 32,
          read_success_cached := (s.stats.read_success_cached + 1) % 2 ^ 32 } }, []⟩ := by
  simp [mgos_sht31_read, hbus, MGOS_SHT31_READ_DELAY, hnow]

theorem read_miss_none_eq (s : mgos_sht31) (h : Nat) (env : ReadEnv) (hbus : s.i2c = some h)
    (hnow : 2 ≤ env.start - s.stats.last_read_time) (hrd : env.rd = none) :
    mgos_sht31_read (some s) env =
      ⟨false, some { s with stats := { s.stats with read := (s.stats.read + 1) % 2 ^ 32 } },
        missTrace h s.i2caddr⟩ := by
  cases hw : env.wr <;>
    simp [mgos_sht31_read, mgos_sht31_cmd, hbus, MGOS_SHT31_READ_DELAY, not_lt.mpr hnow, hrd, hw,
      missTrace, cmd_consts]

theorem read_miss_bad_eq (s : mgos_sht31) (h : Nat) (env : ReadEnv) (data : List Nat)
    (hbus : s.i2c = some h) (hnow : 2 ≤ env.start - s.stats.last_read_time)
    (hrd : env.rd = some data) (hbad : ¬ frameValid data) :
    mgos_sht31_read (some s) env =
      ⟨false, some { s with stats := { s.stats with read := (s.stats.read + 1) % 2 ^ 32 } },
        missTrace h s.i2caddr⟩ := by
  have hb : byteAt data 2 ≠ crc8 data 2 ∨ byteAt data 5 ≠ crc8 (data.drop 3) 2 := by
    unfold frameValid at hbad
    by_cases h1 : byteAt data 2 = crc8 data 2
    · right; intro h2; exact hbad ⟨h1, h2⟩
    · left; exact h1
  cases hw : env.wr <;>
    simp [mgos_sht31_read, mgos_sht31_cmd, hbus, MGOS_SHT31_READ_DELAY, not_lt.mpr hnow, hrd, hw,
      missTrace, cmd_consts, hb]

theorem read_miss_ok_eq (s : mgos_sht31) (h : Nat) (env : ReadEnv) (data : List Nat)
    (hbus : s.i2c = some h) (hnow : 2 ≤ env.start - s.stats.last_read_time)
    (hrd : env.rd = some data) (hok : frameValid data) :
    mgos_sht31_read (some s) env =
      ⟨true, some { s with
          temperature := convTemperature (byteAt data 0 * 256 + byteAt data 1)
          humidity := convHumidity (byteAt data 3 * 256 + byteAt data 4)
          stats := { s.stats with
            read := (s.stats.read + 1) % 2 ^ 32
            read_success := (s.stats.read_success + 1) % 2 ^ 32
            read_success_usecs := addUsecs s.stats.read_success_usecs env.start env.finish
            last_read_time := env.start } },
        missTrace h s.i2caddr⟩ := by
  obtain ⟨h1, h2⟩ := hok
  cases hw : env.wr <;>
    simp [mgos_sht31_read, mgos_sht31_cmd, hbus, MGOS_SHT31_READ_DELAY, not_lt.mpr hnow, hrd, hw,
      missTrace, cmd_consts, h1, h2, addUsecs, convTemperature, convHumidity]

theorem f64_mono {x y : ℚ} (hxy : x ≤ y) : f64 x ≤ f64 y :=
  roundFloat_mono 53 (-1022) (by norm_num) hxy

/-- Rounding the difference of the cache test to `double` could change the comparison with
`MGOS_SHT31_READ_DELAY` = 2 only for differences within 2^-52 of 2: a difference of at least 2
stays at least 2, a difference of at most 2 - 2^-52 stays below 2. -/
theorem cache_test_rounding (d : ℚ) :
    (2 ≤ d → 2 ≤ f64 d) ∧ (d ≤ 2 - 1 / 4503599627370496 → f64 d < 2) := by
  have h2 : f64 2 = 2 := by simpa using f64_natCast 2 (by norm_num)
  have hbelow : f64 (2 - 1 / 4503599627370496) = 2 - 1 / 4503599627370496 := by
    unfold f64 roundFloat
    rw [if_neg (by norm_num)]
    rw [roundPos_eq_of 53 (-1022) 0 (2 - 1 / 4503599627370496) 9007199254740991 (by norm_num)
      (by norm_num) (by norm_num) (by norm_num) (by rw [abs_lt]; constructor <;> norm_num)]
    norm_num
  constructor
  · intro hd
    have := f64_mono hd
    rwa [h2] at this
  · intro hd
    have := f64_mono hd
    rw [hbelow] at this
    exact lt_of_le_of_lt this (by norm_num)

/-! ## Values at the concrete inputs -/

theorem frameGood_raw :
    byteAt frameGood 0 * 256 + byteAt frameGood 1 = 0 ∧
    byteAt frameGood 3 * 256 + byteAt frameGood 4 = 65535 := by
  decide

theorem f64_one : f64 1 = 1 := by
  simpa using f64_natCast 1 (by norm_num)

theorem f64_million : f64 1000000 = 1000000 := by
  simpa using f64_natCast 1000000 (by norm_num)

/-- A successful fresh read that takes one second adds 1000000 to a zero duration counter. -/
theorem addUsecs_second (start finish : ℚ) (hsec : finish = start + 1) :
    addUsecs 0 start finish = 1000000 := by
  unfold addUsecs
  have h1 : finish - start = 1 := by rw [hsec]; ring
  rw [h1, f64_one, mul_one, f64_million, zero_add, f64_million]

/-- The successful fresh read of `frameGood`, one second long, on a device whose readings and
duration counter are still zero. -/
theorem read_frameGood (s : mgos_sht31) (h : Nat) (env : ReadEnv) (hbus : s.i2c = some h)
    (hnow : 2 ≤ env.start - s.stats.last_read_time) (hrd : env.rd = some frameGood)
    (hsec : env.finish = env.start + 1) (husecs : s.stats.read_success_usecs = 0) :
    mgos_sht31_read (some s) env =
      ⟨true, some { s with
          temperature := -45
          humidity := 100
          stats := { s.stats with
            read := (s.stats.read + 1) % 2 ^ 32
            read_success := (s.stats.read_success + 1) % 2 ^ 32
            read_success_usecs := 1000000
            last_read_time := env.start } },
        missTrace h s.i2caddr⟩ := by
  rw [read_miss_ok_eq s h env frameGood hbus hnow hrd (by decide), frameGood_raw.1,
    frameGood_raw.2, convTemperature_endpoints.1, convHumidity_endpoints.2, husecs,
    addUsecs_second env.start env.finish hsec]

/-- The trigger write answer has no influence on `mgos_sht31_read`. -/
theorem read_wr_indep (sensor : Option mgos_sht31) (t0 t1 : ℚ) (rd : Option (List Nat))
    (w w' : Bool) :
    mgos_sht31_read sensor ⟨t0, w, rd, t1⟩ = mgos_sht31_read sensor ⟨t0, w', rd, t1⟩ := by
  cases sensor with
  | none => rfl
  | some s =>
    cases hi : s.i2c with
    | none => simp [mgos_sht31_read, hi]
    | some h => cases w <;> cases w' <;> simp [mgos_sht31_read, mgos_sht31_cmd, hi]

/-- A cache miss whose 6-byte read fails or delivers a frame with a wrong checksum. -/
theorem read_bad_eq (s : mgos_sht31) (h : Nat) (env : ReadEnv) (hbus : s.i2c = some h)
    (hnow : 2 ≤ env.start - s.stats.last_read_time)
    (hbad : env.rd = none ∨ ∃ data, env.rd = some data ∧ ¬ frameValid data) :
    mgos_sht31_read (some s) env =
      ⟨false, some { s with stats := { s.stats with read := (s.stats.read + 1) % 2 ^ 32 } },
        missTrace h s.i2caddr⟩ := by
  rcases hbad with hrd | ⟨data, hrd, hcrc⟩
  · exact read_miss_none_eq s h env hbus hnow hrd
  · exact read_miss_bad_eq s h env data hbus hnow hrd hcrc

/-! ## Checksums of well-formed frames -/

theorem crc8_shift_lt (crc : Nat) : crc8_shift crc < 256 := by
  unfold crc8_shift
  split <;> exact Nat.mod_lt _ (by norm_num)

theorem crc8_inner_lt (i crc : Nat) (hcrc : crc < 256) : crc8_inner i crc < 256 := by
  induction i generalizing crc with
  | zero => simpa [crc8_inner] using hcrc
  | succ i ih => exact ih _ (crc8_shift_lt crc)

theorem crc8_outer_lt (j : Nat) (data : List Nat) (crc : Nat) (hcrc : crc < 256) :
    crc8_outer j data crc < 256 := by
  induction j generalizing data crc with
  | zero => simpa [crc8_outer] using hcrc
  | succ j ih => exact ih _ _ (crc8_inner_lt _ _ (Nat.mod_lt _ (by norm_num)))

theorem crc8_lt (data : List Nat) (len : Nat) : crc8 data len < 256 :=
  crc8_outer_lt len data 0xFF (by norm_num)

/-- The checksum over two bytes reads the two bytes at the start of the buffer only. -/
theorem crc8_two (a b : Nat) (rest : List Nat) : crc8 (a :: b :: rest) 2 = crc8 [a, b] 2 := by
  simp [crc8, crc8_outer]

theorem frameOf_valid (rt rh : Nat) : frameValid (frameOf rt rh) := by
  constructor
  · show byteAt (frameOf rt rh) 2 = crc8 (frameOf rt rh) 2
    simp [frameOf, byteAt, Nat.mod_eq_of_lt (crc8_lt _ _), crc8_two]
  · show byteAt (frameOf rt rh) 5 = crc8 ((frameOf rt rh).drop 3) 2
    simp [frameOf, byteAt, Nat.mod_eq_of_lt (crc8_lt _ _), crc8_two]

theorem frameOf_raw (rt rh : Nat) (hrt : rt < 65536) (hrh : rh < 65536) :
    byteAt (frameOf rt rh) 0 * 256 + byteAt (frameOf rt rh) 1 = rt ∧
    byteAt (frameOf rt rh) 3 * 256 + byteAt (frameOf rt rh) 4 = rh := by
  simp only [frameOf, byteAt, List.getD_cons_zero, List.getD_cons_succ]
  omega

/-! ## Construction -/

theorem status_trace (h addr : Nat) (wr : Bool) (rd : Option (List Nat)) :
    (mgos_sht31_status (freshDevice h addr) wr rd).2 =
      [cmdTrace h addr 0xF3 0x2D, Event.i2c_read (some h) addr 3 true] := by
  have hc : [(MGOS_SHT31_READSTATUS >>> 8) % 256, MGOS_SHT31_READSTATUS &&& 0xFF]
      = [0xF3, 0x2D] := by decide
  cases wr <;> cases rd <;>
    simp [mgos_sht31_status, mgos_sht31_cmd, freshDevice, cmdTrace, hc] <;>
    split <;> rfl

theorem cmd_fresh_trace (h addr cmd : Nat) (wr : Bool) :
    (mgos_sht31_cmd (some (freshDevice h addr)) cmd wr).2 =
      [cmdTrace h addr ((cmd >>> 8) % 256) (cmd &&& 0xFF)] := by
  cases wr <;> simp [mgos_sht31_cmd, freshDevice, cmdTrace]

/-- With a bus handle and a successful allocation, `mgos_sht31_create` is decided by the three
status words. -/
theorem create_eq (h addr : Nat) (env : CreateEnv) (halloc : env.alloc = true) :
    mgos_sht31_create (some h) addr env =
      if ((mgos_sht31_status (freshDevice h addr) env.wr_status0 env.rd_status0).1 &&& 0x2000 = 0 ∧
          (mgos_sht31_status (freshDevice h addr) env.wr_status1 env.rd_status1).1 &&& 0x2000 ≠ 0 ∧
          (mgos_sht31_status (freshDevice h addr) env.wr_status2 env.rd_status2).1 &&& 0x2000 = 0)
      then (some (freshDevice h addr), selfTestTrace h addr)
      else (none, selfTestTrace h addr) := by
  have htrace :
      (mgos_sht31_cmd (some (freshDevice h addr)) MGOS_SHT31_SOFTRESET env.wr_reset).2 ++
      (mgos_sht31_status (freshDevice h addr) env.wr_status0 env.rd_status0).2 ++
      (mgos_sht31_cmd (some (freshDevice h addr)) MGOS_SHT31_HEATEREN env.wr_heateren).2 ++
      (mgos_sht31_status (freshDevice h addr) env.wr_status1 env.rd_status1).2 ++
      (mgos_sht31_cmd (some (freshDevice h addr)) MGOS_SHT31_HEATERDIS env.wr_heaterdis).2 ++
      (mgos_sht31_status (freshDevice h addr) env.wr_status2 env.rd_status2).2 =
        selfTestTrace h addr := by
    rw [status_trace, status_trace, status_trace, cmd_fresh_trace, cmd_fresh_trace,
      cmd_fresh_trace]
    rfl
  have hdef : mgos_sht31_create (some h) addr env =
      if (!env.alloc) = true then (none, [])
      else if
          ((mgos_sht31_status (freshDevice h addr) env.wr_status0 env.rd_status0).1
              &&& 0x2000 = 0 ∧
           (mgos_sht31_status (freshDevice h addr) env.wr_status1 env.rd_status1).1
              &&& 0x2000 ≠ 0 ∧
           (mgos_sht31_status (freshDevice h addr) env.wr_status2 env.rd_status2).1
              &&& 0x2000 = 0)
        then (some (freshDevice h addr),
          (mgos_sht31_cmd (some (freshDevice h addr)) MGOS_SHT31_SOFTRESET env.wr_reset).2 ++
          (mgos_sht31_status (freshDevice h addr) env.wr_status0 env.rd_status0).2 ++
          (mgos_sht31_cmd (some (freshDevice h addr)) MGOS_SHT31_HEATEREN env.wr_heateren).2 ++
          (mgos_sht31_status (freshDevice h addr) env.wr_status1 env.rd_status1).2 ++
          (mgos_sht31_cmd (some (freshDevice h addr)) MGOS_SHT31_HEATERDIS env.wr_heaterdis).2 ++
          (mgos_sht31_status (freshDevice h addr) env.wr_status2 env.rd_status2).2)
        else (none,
          (mgos_sht31_cmd (some (freshDevice h addr)) MGOS_SHT31_SOFTRESET env.wr_reset).2 ++
          (mgos_sht31_status (freshDevice h addr) env.wr_status0 env.rd_status0).2 ++
          (mgos_sht31_cmd (some (freshDevice h addr)) MGOS_SHT31_HEATEREN env.wr_heateren).2 ++
          (mgos_sht31_status (freshDevice h addr) env.wr_status1 env.rd_status1).2 ++
          (mgos_sht31_cmd (some (freshDevice h addr)) MGOS_SHT31_HEATERDIS env.wr_heaterdis).2 ++
          (mgos_sht31_status (freshDevice h addr) env.wr_status2 env.rd_status2).2) := rfl
  rw [hdef, halloc, htrace]
  simp

/-- On a cache miss the received frame is either unusable or right. -/
theorem frame_cases (rd : Option (List Nat)) :
    (rd = none ∨ ∃ data, rd = some data ∧ ¬ frameValid data) ∨
      ∃ data, rd = some data ∧ frameValid data := by
  cases rd with
  | none => exact Or.inl (Or.inl rfl)
  | some data =>
    by_cases hok : frameValid data
    · exact Or.inr ⟨data, rfl, hok⟩
    · exact Or.inl (Or.inr ⟨data, rfl, hok⟩)

/-- What every cache miss does: the trace is trigger, wait, 6-byte read; bus handle, address and
`read_success_cached` are kept; a true return sets `last_read_time` to the entry time. -/
theorem read_miss_summary (s : mgos_sht31) (h : Nat) (env : ReadEnv) (hbus : s.i2c = some h)
    (hnow : 2 ≤ env.start - s.stats.last_read_time) :
    (mgos_sht31_read (some s) env).trace = missTrace h s.i2caddr ∧
    ∃ s', (mgos_sht31_read (some s) env).sensor = some s' ∧
      s'.i2c = some h ∧ s'.i2caddr = s.i2caddr ∧
      s'.stats.read_success_cached = s.stats.read_success_cached ∧
      ((mgos_sht31_read (some s) env).ret = true → s'.stats.last_read_time = env.start) := by
  rcases frame_cases env.rd with hbad | ⟨data, hrd, hok⟩
  · rw [read_bad_eq s h env hbus hnow hbad]
    exact ⟨rfl, _, rfl, hbus, rfl, rfl, fun hf => by simp at hf⟩
  · rw [read_miss_ok_eq s h env data hbus hnow hrd hok]
    exact ⟨rfl, _, rfl, hbus, rfl, rfl, fun _ => rfl⟩

/-! ## Runs of reads -/

theorem reads_cons (sensor : Option mgos_sht31) (env : ReadEnv) (envs : List ReadEnv) :
    reads sensor (env :: envs) = reads (mgos_sht31_read sensor env).sensor envs := rfl

/-- A device returned by `mgos_sht31_create` is the zeroed record on the given bus. -/
theorem create_some (i2c : Option Nat) (addr : Nat) (env : CreateEnv) (dev : mgos_sht31)
    (hdev : (mgos_sht31_create i2c addr env).1 = some dev) :
    ∃ h, i2c = some h ∧ dev = freshDevice h addr := by
  cases i2c with
  | none => simp [mgos_sht31_create] at hdev
  | some h =>
    cases halloc : env.alloc with
    | false => simp [mgos_sht31_create, halloc] at hdev
    | true =>
      rw [create_eq h addr env halloc] at hdev
      split at hdev
      · exact ⟨h, rfl, (Option.some.inj hdev).symm⟩
      · simp at hdev

/-- One call, while `read` is below its maximum: `read` grows by one and stays at least
`read_success + read_success_cached`. -/
theorem read_step_counts (s : mgos_sht31) (h : Nat) (env : ReadEnv) (hbus : s.i2c = some h)
    (hroom : s.stats.read + 1 < 2 ^ 32)
    (hinv : s.stats.read_success + s.stats.read_success_cached ≤ s.stats.read) :
    ∃ s', (mgos_sht31_read (some s) env).sensor = some s' ∧ s'.i2c = some h ∧
      s'.stats.read = s.stats.read + 1 ∧
      s'.stats.read_success + s'.stats.read_success_cached ≤ s'.stats.read := by
  have hmod : (s.stats.read + 1) % 2 ^ 32 = s.stats.read + 1 := Nat.mod_eq_of_lt hroom
  by_cases hnow : env.start - s.stats.last_read_time < 2
  · rw [read_hit_eq s h env hbus hnow]
    refine ⟨_, rfl, hbus, hmod, ?_⟩
    show s.stats.read_success + (s.stats.read_success_cached + 1) % 2 ^ 32
      ≤ (s.stats.read + 1) % 2 ^ 32
    rw [hmod]
    have := Nat.mod_le (s.stats.read_success_cached + 1) (2 ^ 32)
    omega
  · have hmiss : 2 ≤ env.start - s.stats.last_read_time := not_lt.mp hnow
    rcases frame_cases env.rd with hbad | ⟨data, hrd, hok⟩
    · rw [read_bad_eq s h env hbus hmiss hbad]
      refine ⟨_, rfl, hbus, hmod, ?_⟩
      show s.stats.read_success + s.stats.read_success_cached ≤ (s.stats.read + 1) % 2 ^ 32
      rw [hmod]
      omega
    · rw [read_miss_ok_eq s h env data hbus hmiss hrd hok]
      refine ⟨_, rfl, hbus, hmod, ?_⟩
      show (s.stats.read_success + 1) % 2 ^ 32 + s.stats.read_success_cached
        ≤ (s.stats.read + 1) % 2 ^ 32
      rw [hmod]
      have := Nat.mod_le (s.stats.read_success + 1) (2 ^ 32)
      omega

/-- A run that does not exhaust the 32-bit `read` counter keeps the statistics invariant. -/
theorem reads_counts (envs : List ReadEnv) (s : mgos_sht31) (h : Nat) (hbus : s.i2c = some h)
    (hroom : s.stats.read + envs.length < 2 ^ 32)
    (hinv : s.stats.read_success + s.stats.read_success_cached ≤ s.stats.read) :
    ∃ s', reads (some s) envs = some s' ∧ s'.i2c = some h ∧
      s'.stats.read = s.stats.read + envs.length ∧
      s'.stats.read_success + s'.stats.read_success_cached ≤ s'.stats.read := by
  induction envs generalizing s with
  | nil => exact ⟨s, rfl, hbus, rfl, hinv⟩
  | cons env envs ih =>
    rw [List.length_cons] at hroom
    obtain ⟨s1, hs1, hb1, hr1, hi1⟩ := read_step_counts s h env hbus (by omega) hinv
    obtain ⟨s2, hs2, hb2, hr2, hi2⟩ := ih s1 hb1 (by omega) hi1
    refine ⟨s2, ?_, hb2, ?_, hi2⟩
    · rw [reads_cons, hs1, hs2]
    · rw [hr2, hr1, List.length_cons]; omega

/-- A run of `n` calls within the cache window adds `n` to `read` and to `read_success_cached`,
modulo 2^32. -/
theorem reads_hits (env : ReadEnv) (n : Nat) (s : mgos_sht31) (h : Nat) (hbus : s.i2c = some h)
    (hnow : env.start - s.stats.last_read_time < 2)
    (hr : s.stats.read < 2 ^ 32) (hc : s.stats.read_success_cached < 2 ^ 32) :
    reads (some s) (List.replicate n env) =
      some { s with stats := { s.stats with
        read := (s.stats.read + n) % 2 ^ 32
        read_success_cached := (s.stats.read_success_cached + n) % 2 ^ 32 } } := by
  induction n generalizing s with
  | zero =>
    show some s = _
    rw [Nat.add_zero, Nat.add_zero, Nat.mod_eq_of_lt hr, Nat.mod_eq_of_lt hc]
  | succ n ih =>
    rw [List.replicate_succ, reads_cons, read_hit_eq s h env hbus hnow]
    refine Eq.trans (ih _ hbus hnow (Nat.mod_lt _ (by norm_num)) (Nat.mod_lt _ (by norm_num))) ?_
    have e1 : ((s.stats.read + 1) % 2 ^ 32 + n) % 2 ^ 32 = (s.stats.read + (n + 1)) % 2 ^ 32 := by
      omega
    have e2 : ((s.stats.read_success_cached + 1) % 2 ^ 32 + n) % 2 ^ 32
        = (s.stats.read_success_cached + (n + 1)) % 2 ^ 32 := by
      omega
    show some { s with stats := { s.stats with
        read := ((s.stats.read + 1) % 2 ^ 32 + n) % 2 ^ 32
        read_success_cached := ((s.stats.read_success_cached + 1) % 2 ^ 32 + n) % 2 ^ 32 } } = _
    rw [e1, e2]

/-! ## Accounting of a run -/

theorem outcomes_cons (sensor : Option mgos_sht31) (env : ReadEnv) (envs : List ReadEnv) :
    outcomes sensor (env :: envs) =
      mgos_sht31_read sensor env :: outcomes (mgos_sht31_read sensor env).sensor envs := rfl

/-- One call on a device with a bus handle: `read` gets its increment and the call is of exactly
one kind, with the matching counter incremented. -/
theorem read_step_kind (s : mgos_sht31) (h : Nat) (env : ReadEnv) (hbus : s.i2c = some h) :
    ∃ s', (mgos_sht31_read (some s) env).sensor = some s' ∧ s'.i2c = some h ∧
      s'.stats.read = (s.stats.read + 1) % 2 ^ 32 ∧
      ((isCached (mgos_sht31_read (some s) env) = true ∧
          isFresh (mgos_sht31_read (some s) env) = false ∧
          isFailure (mgos_sht31_read (some s) env) = false ∧
          s'.stats.read_success_cached = (s.stats.read_success_cached + 1) % 2 ^ 32 ∧
          s'.stats.read_success = s.stats.read_success) ∨
       (isCached (mgos_sht31_read (some s) env) = false ∧
          isFresh (mgos_sht31_read (some s) env) = true ∧
          isFailure (mgos_sht31_read (some s) env) = false ∧
          s'.stats.read_success_cached = s.stats.read_success_cached ∧
          s'.stats.read_success = (s.stats.read_success + 1) % 2 ^ 32) ∨
       (isCached (mgos_sht31_read (some s) env) = false ∧
          isFresh (mgos_sht31_read (some s) env) = false ∧
          isFailure (mgos_sht31_read (some s) env) = true ∧
          s'.stats.read_success_cached = s.stats.read_success_cached ∧
          s'.stats.read_success = s.stats.read_success)) := by
  by_cases hnow : env.start - s.stats.last_read_time < 2
  · rw [read_hit_eq s h env hbus hnow]
    exact ⟨_, rfl, hbus, rfl, Or.inl ⟨rfl, rfl, rfl, rfl, rfl⟩⟩
  · have hmiss : 2 ≤ env.start - s.stats.last_read_time := not_lt.mp hnow
    rcases frame_cases env.rd with hbad | ⟨data, hrd, hok⟩
    · rw [read_bad_eq s h env hbus hmiss hbad]
      exact ⟨_, rfl, hbus, rfl, Or.inr (Or.inr ⟨rfl, rfl, rfl, rfl, rfl⟩)⟩
    · rw [read_miss_ok_eq s h env data hbus hmiss hrd hok]
      exact ⟨_, rfl, hbus, rfl, Or.inr (Or.inl ⟨rfl, rfl, rfl, rfl, rfl⟩)⟩

/-- A run on a device with a bus handle: each counter has grown, modulo 2^32, by the number of
calls of its kind, and every call is a failure, a cached read or a fresh success. -/
theorem reads_accounting (envs : List ReadEnv) (s : mgos_sht31) (h : Nat) (hbus : s.i2c = some h)
    (hr : s.stats.read < 2 ^ 32) (hc : s.stats.read_success_cached < 2 ^ 32)
    (hs : s.stats.read_success < 2 ^ 32) :
    ∃ s', reads (some s) envs = some s' ∧
      s'.stats.read = (s.stats.read + envs.length) % 2 ^ 32 ∧
      s'.stats.read_success_cached =
        (s.stats.read_success_cached + (outcomes (some s) envs).countP isCached) % 2 ^ 32 ∧
      s'.stats.read_success =
        (s.stats.read_success + (outcomes (some s) envs).countP isFresh) % 2 ^ 32 ∧
      (outcomes (some s) envs).countP isFailure + (outcomes (some s) envs).countP isCached +
        (outcomes (some s) envs).countP isFresh = envs.length := by
  induction envs generalizing s with
  | nil =>
    refine ⟨s, rfl, ?_, ?_, ?_, rfl⟩
    · exact (Nat.mod_eq_of_lt hr).symm
    · exact (Nat.mod_eq_of_lt hc).symm
    · exact (Nat.mod_eq_of_lt hs).symm
  | cons env envs ih =>
    obtain ⟨s1, hs1, hb1, hr1, hkind⟩ := read_step_kind s h env hbus
    have hM : 0 < 2 ^ 32 := by norm_num
    have hr1' : s1.stats.read < 2 ^ 32 := by rw [hr1]; exact Nat.mod_lt _ hM
    have hc1' : s1.stats.read_success_cached < 2 ^ 32 := by
      rcases hkind with ⟨_, _, _, e, _⟩ | ⟨_, _, _, e, _⟩ | ⟨_, _, _, e, _⟩
      · rw [e]; exact Nat.mod_lt _ hM
      · rw [e]; exact hc
      · rw [e]; exact hc
    have hs1' : s1.stats.read_success < 2 ^ 32 := by
      rcases hkind with ⟨_, _, _, _, e⟩ | ⟨_, _, _, _, e⟩ | ⟨_, _, _, _, e⟩
      · rw [e]; exact hs
      · rw [e]; exact Nat.mod_lt _ hM
      · rw [e]; exact hs
    obtain ⟨s2, hs2, hr2, hc2, hsc2, hsum⟩ := ih s1 hb1 hr1' hc1' hs1'
    refine ⟨s2, ?_, ?_, ?_, ?_, ?_⟩
    · rw [reads_cons, hs1, hs2]
    · rw [hr2, hr1, List.length_cons]; omega
    · rw [outcomes_cons, List.countP_cons, hs1, hc2]
      rcases hkind with ⟨k, _, _, e, _⟩ | ⟨k, _, _, e, _⟩ | ⟨k, _, _, e, _⟩ <;>
        (rw [e, k]; simp; try omega)
    · rw [outcomes_cons, List.countP_cons, hs1, hsc2]
      rcases hkind with ⟨_, k, _, _, e⟩ | ⟨_, k, _, _, e⟩ | ⟨_, k, _, _, e⟩ <;>
        (rw [e, k]; simp; try omega)
    · rw [outcomes_cons, List.countP_cons, List.countP_cons, List.countP_cons, hs1,
        List.length_cons]
      rcases hkind with ⟨k1, k2, k3, _, _⟩ | ⟨k1, k2, k3, _, _⟩ | ⟨k1, k2, k3, _, _⟩ <;>
        (rw [k1, k2, k3]; simp; omega)

/-- The run `longRun` on `dev0` ends in `wrapState`. -/
theorem reads_longRun : reads (some dev0) longRun = some wrapState := by
  have hfail : 2 ≤ envFailAt2.start - dev0.stats.last_read_time := by
    norm_num [envFailAt2, dev0]
  have h1 : mgos_sht31_read (some dev0) envFailAt2 =
      ⟨false, some ⟨some 1, 0x44, ⟨0, 1, 0, 0, 0⟩, 0, 0⟩, missTrace 1 0x44⟩ := by
    rw [read_bad_eq dev0 1 envFailAt2 rfl hfail (Or.inl rfl)]
    norm_num [dev0]
  have h2 : mgos_sht31_read (some ⟨some 1, 0x44, ⟨0, 1, 0, 0, 0⟩, 0, 0⟩) envGoodAt3 =
      ⟨true, some ⟨some 1, 0x44, ⟨3, 2, 1, 0, 1000000⟩, 100, -45⟩, missTrace 1 0x44⟩ := by
    rw [read_frameGood _ 1 envGoodAt3 rfl (by norm_num [envGoodAt3]) rfl
      (by norm_num [envGoodAt3]) rfl]
    norm_num [envGoodAt3]
  have h3 := reads_hits envAt4 4294967294 ⟨some 1, 0x44, ⟨3, 2, 1, 0, 1000000⟩, 100, -45⟩ 1 rfl
    (by norm_num [envAt4]) (by norm_num) (by norm_num)
  rw [longRun, reads_cons, h1, reads_cons, h2, h3]
  rfl

theorem longRun_length : longRun.length = 2 ^ 32 := by
  rw [longRun, List.length_cons, List.length_cons, List.length_replicate]
  norm_num

/-! ## The checksum as a function of the bytes -/

/-- The outer loop of `crc8` reads the `len` bytes at the start of the buffer only. -/
theorem crc8_outer_take (len : Nat) (data : List Nat) (crc : Nat) :
    crc8_outer len data crc = crc8_outer len (data.take len) crc := by
  induction len generalizing data crc with
  | zero => rfl
  | succ j ih =>
    cases data with
    | nil => rfl
    | cons b rest =>
      show crc8_outer j rest _ = crc8_outer j (rest.take j) _
      exact ih rest _

/-- One more byte at the end: the register goes through one more pass of the outer loop. -/
theorem crc8_outer_append (data : List Nat) (b crc : Nat) :
    crc8_outer (data.length + 1) (data ++ [b]) crc =
      crc8_inner 8 ((crc8_outer data.length data crc ^^^ (b % 256)) % 256) := by
  induction data generalizing crc with
  | nil => rfl
  | cons a rest ih =>
    show crc8_outer (rest.length + 1) (rest ++ [b]) _ = _
    rw [ih]
    rfl

theorem crc8_inner_zero (i : Nat) : crc8_inner i 0 = 0 := by
  induction i with
  | zero => rfl
  | succ i ih => exact ih

/-! ## The checksum as a polynomial remainder -/

theorem poly_add_self (p : Polynomial (ZMod 2)) : p + p = 0 := CharTwo.add_self_eq_zero p

theorem bytePoly_xor (a b : Nat) : bytePoly (a ^^^ b) = bytePoly a + bytePoly b := by
  unfold bytePoly
  rw [← Finset.sum_add_distrib]
  refine Finset.sum_congr rfl (fun i _ => ?_)
  rw [Nat.testBit_xor]
  cases a.testBit i <;> cases b.testBit i <;> simp [poly_add_self]

theorem bytePoly_mod (a : Nat) : bytePoly (a % 256) = bytePoly a := by
  unfold bytePoly
  refine Finset.sum_congr rfl (fun i hi => ?_)
  rw [show (256 : Nat) = 2 ^ 8 from rfl, Nat.testBit_mod_two_pow]
  simp [Finset.mem_range.mp hi]

theorem bytePoly_poly : bytePoly 0x31 = Polynomial.X ^ 5 + Polynomial.X ^ 4 + 1 := by
  have t0 : Nat.testBit 0x31 0 = true := by decide
  have t1 : Nat.testBit 0x31 1 = false := by decide
  have t2 : Nat.testBit 0x31 2 = false := by decide
  have t3 : Nat.testBit 0x31 3 = false := by decide
  have t4 : Nat.testBit 0x31 4 = true := by decide
  have t5 : Nat.testBit 0x31 5 = true := by decide
  have t6 : Nat.testBit 0x31 6 = false := by decide
  have t7 : Nat.testBit 0x31 7 = false := by decide
  simp only [bytePoly, Finset.sum_range_succ, Finset.sum_range_zero, t0, t1, t2, t3, t4, t5, t6,
    t7]
  simp
  ring

theorem shl_testBit (c i : Nat) (hi : i < 8) :
    ((c <<< 1) % 256).testBit i = (decide (1 ≤ i) && c.testBit (i - 1)) := by
  rw [show (256 : Nat) = 2 ^ 8 from rfl, Nat.testBit_mod_two_pow, Nat.testBit_shiftLeft]
  simp [hi]

theorem shl_testBit_succ (c k : Nat) (hk : k + 1 < 8) :
    ((c <<< 1) % 256).testBit (k + 1) = c.testBit k := by
  rw [shl_testBit c (k + 1) hk]; simp

theorem shl_testBit_zero (c : Nat) : ((c <<< 1) % 256).testBit 0 = false := by
  rw [shl_testBit c 0 (by norm_num)]; simp

theorem bytePoly_shl (c : Nat) :
    bytePoly ((c <<< 1) % 256) =
      Polynomial.X * bytePoly c + (if c.testBit 7 then Polynomial.X ^ 8 else 0) := by
  have hb : ∀ k : Nat, (if c.testBit k then (Polynomial.X : Polynomial (ZMod 2)) ^ (k + 1) else 0)
      = Polynomial.X * (if c.testBit k then (Polynomial.X : Polynomial (ZMod 2)) ^ k else 0) := by
    intro k; split <;> simp [pow_succ, mul_comm]
  unfold bytePoly
  simp only [Finset.sum_range_succ, Finset.sum_range_zero, shl_testBit_zero,
    shl_testBit_succ c 0 (by norm_num), shl_testBit_succ c 1 (by norm_num),
    shl_testBit_succ c 2 (by norm_num), shl_testBit_succ c 3 (by norm_num),
    shl_testBit_succ c 4 (by norm_num), shl_testBit_succ c 5 (by norm_num),
    shl_testBit_succ c 6 (by norm_num)]
  simp only [mul_add, ← hb]
  have h2 := poly_add_self (if c.testBit 7 then (Polynomial.X : Polynomial (ZMod 2)) ^ 8 else 0)
  simp only [zero_add, Bool.false_eq_true, if_false] at h2 ⊢
  linear_combination -h2
theorem and_0x80 (c : Nat) : c &&& 0x80 ≠ 0 ↔ c.testBit 7 = true := by
  constructor
  · intro hne
    by_contra hbit
    apply hne
    apply Nat.eq_of_testBit_eq
    intro i
    rw [Nat.testBit_and, show (0x80 : Nat) = 2 ^ 7 from rfl, Nat.testBit_two_pow]
    by_cases hi : 7 = i
    · subst hi; simp [hbit]
    · simp [hi]
  · intro hbit hzero
    have : (c &&& 0x80).testBit 7 = true := by
      rw [Nat.testBit_and, hbit]; decide
    rw [hzero] at this
    simp at this

/-- One pass of the inner loop multiplies the register polynomial by `x` and reduces by `G`. -/
theorem bytePoly_crc8_shift (c : Nat) :
    bytePoly (crc8_shift c) =
      Polynomial.X * bytePoly c + (if c.testBit 7 then crcGen else 0) := by
  unfold crc8_shift
  by_cases hbit : c.testBit 7 = true
  · rw [if_pos ((and_0x80 c).mpr hbit), if_pos hbit, bytePoly_mod, bytePoly_xor,
      ← bytePoly_mod (c <<< 1), bytePoly_shl, if_pos hbit, bytePoly_poly, crcGen]
    ring
  · rw [if_neg (fun h => hbit ((and_0x80 c).mp h)), if_neg hbit, bytePoly_shl, if_neg hbit]

theorem PolyCong.refl (p : Polynomial (ZMod 2)) : PolyCong p p := by
  unfold PolyCong; simp

theorem PolyCong.trans {p q r : Polynomial (ZMod 2)} (h1 : PolyCong p q) (h2 : PolyCong q r) :
    PolyCong p r := by
  unfold PolyCong at *
  have := dvd_add h1 h2
  simpa using this

theorem PolyCong.mul_left (a : Polynomial (ZMod 2)) {p q : Polynomial (ZMod 2)}
    (h : PolyCong p q) : PolyCong (a * p) (a * q) := by
  unfold PolyCong at *
  rw [← mul_sub]
  exact Dvd.dvd.mul_left h a

theorem PolyCong.add_right {p q : Polynomial (ZMod 2)} (h : PolyCong p q)
    (a : Polynomial (ZMod 2)) : PolyCong (p + a) (q + a) := by
  unfold PolyCong at *
  simpa using h

theorem shift_cong (c : Nat) : PolyCong (bytePoly (crc8_shift c)) (Polynomial.X * bytePoly c) := by
  unfold PolyCong
  rw [bytePoly_crc8_shift]
  split <;> simp

theorem inner_cong (i c : Nat) :
    PolyCong (bytePoly (crc8_inner i c)) (Polynomial.X ^ i * bytePoly c) := by
  induction i generalizing c with
  | zero => simpa [crc8_inner] using PolyCong.refl _
  | succ i ih =>
    have h1 := ih (crc8_shift c)
    have h2 := PolyCong.mul_left (Polynomial.X ^ i) (shift_cong c)
    have h3 := PolyCong.trans h1 h2
    have e : Polynomial.X ^ i * (Polynomial.X * bytePoly c)
        = Polynomial.X ^ (i + 1) * bytePoly c := by ring
    rw [e] at h3
    exact h3

theorem outer_cong (data : List Nat) (crc : Nat) :
    PolyCong (bytePoly (crc8_outer data.length data crc))
      (msgPoly data * Polynomial.X ^ 8 + bytePoly crc * Polynomial.X ^ (8 * data.length)) := by
  induction data generalizing crc with
  | nil => simpa [crc8_outer, msgPoly] using PolyCong.refl _
  | cons b rest ih =>
    have h1 := ih (crc8_inner 8 ((crc ^^^ (b % 256)) % 256))
    have h2 := inner_cong 8 ((crc ^^^ (b % 256)) % 256)
    rw [bytePoly_mod, bytePoly_xor, bytePoly_mod] at h2
    have h3 := PolyCong.add_right
      (PolyCong.mul_left (Polynomial.X ^ (8 * rest.length)) h2) (msgPoly rest * Polynomial.X ^ 8)
    have e1 : msgPoly rest * Polynomial.X ^ 8 +
        bytePoly (crc8_inner 8 ((crc ^^^ (b % 256)) % 256)) * Polynomial.X ^ (8 * rest.length)
        = Polynomial.X ^ (8 * rest.length) *
            bytePoly (crc8_inner 8 ((crc ^^^ (b % 256)) % 256)) + msgPoly rest * Polynomial.X ^ 8 := by
      ring
    have e2 : Polynomial.X ^ (8 * rest.length) * (Polynomial.X ^ 8 * (bytePoly crc + bytePoly b))
          + msgPoly rest * Polynomial.X ^ 8
        = msgPoly (b :: rest) * Polynomial.X ^ 8 +
            bytePoly crc * Polynomial.X ^ (8 * (b :: rest).length) := by
      rw [msgPoly, List.length_cons]
      ring
    rw [e1] at h1
    rw [e2] at h3
    exact PolyCong.trans h1 h3

theorem crcGen_monic : crcGen.Monic := by
  unfold crcGen
  monicity!

theorem crcGen_degree : crcGen.degree = 8 := by
  unfold crcGen
  compute_degree!

theorem bytePoly_degree_lt (b : Nat) : (bytePoly b).degree < 8 := by
  unfold bytePoly
  refine lt_of_le_of_lt (Polynomial.degree_sum_le _ _) ?_
  rw [Finset.sup_lt_iff (by decide)]
  intro i hi
  have hi' : i < 8 := Finset.mem_range.mp hi
  split
  · rw [Polynomial.degree_X_pow]; exact_mod_cast hi'
  · rw [Polynomial.degree_zero]; exact WithBot.bot_lt_coe 8

theorem crc8_poly (data : List Nat) :
    bytePoly (crc8 data data.length) = crcRemainder data := by
  unfold crcRemainder
  obtain ⟨k, hk⟩ := outer_cong data 0xFF
  symm
  refine (Polynomial.div_modByMonic_unique (-k) _ crcGen_monic ⟨?_, ?_⟩).2
  · have : bytePoly (crc8 data data.length) =
        (msgPoly data * Polynomial.X ^ 8 + bytePoly 0xFF * Polynomial.X ^ (8 * data.length))
          + crcGen * k := by
      unfold crc8
      rw [← hk]; ring
    rw [this]; ring
  · rw [crcGen_degree]; exact bytePoly_degree_lt _

theorem bytePoly_coeff (b i : Nat) (hi : i < 8) :
    (bytePoly b).coeff i = if b.testBit i then 1 else 0 := by
  unfold bytePoly
  rw [Polynomial.finset_sum_coeff, Finset.sum_eq_single i]
  · split <;> simp
  · intro j _ hji
    split <;> simp [Polynomial.coeff_X_pow, hji.symm]
  · intro hni
    exact absurd (Finset.mem_range.mpr hi) hni

/-- Two bytes with the same polynomial are equal. -/
theorem bytePoly_inj (a b : Nat) (ha : a < 256) (hb : b < 256) (hab : bytePoly a = bytePoly b) :
    a = b := by
  apply Nat.eq_of_testBit_eq
  intro i
  by_cases hi : i < 8
  · have hc := congrArg (fun p => Polynomial.coeff p i) hab
    simp only [bytePoly_coeff _ i hi] at hc
    cases ha' : a.testBit i <;> cases hb' : b.testBit i <;> simp [ha', hb'] at hc ⊢
  · have hpow : (256 : Nat) ≤ 2 ^ i := by
      calc (256 : Nat) = 2 ^ 8 := rfl
        _ ≤ 2 ^ i := Nat.pow_le_pow_right (by norm_num) (by omega)
    rw [Nat.testBit_lt_two_pow (lt_of_lt_of_le ha hpow),
      Nat.testBit_lt_two_pow (lt_of_lt_of_le hb hpow)]

theorem bytePoly_coeff_high (b m : Nat) (hm : 8 ≤ m) : (bytePoly b).coeff m = 0 :=
  Polynomial.coeff_eq_zero_of_degree_lt
    (lt_of_lt_of_le (bytePoly_degree_lt b) (by exact_mod_cast hm))

/-- The message polynomial of `n` bytes has no term of degree `8 * n` or more. -/
theorem msgPoly_coeff_high (data : List Nat) (m : Nat) (hm : 8 * data.length ≤ m) :
    (msgPoly data).coeff m = 0 := by
  induction data with
  | nil => simp [msgPoly]
  | cons b rest ih =>
    rw [List.length_cons] at hm
    rw [msgPoly, Polynomial.coeff_add, Polynomial.coeff_mul_X_pow', if_pos (by omega),
      bytePoly_coeff_high b _ (by omega), ih (by omega), add_zero]

theorem bytePoly_0xFF :
    bytePoly 0xFF = Polynomial.X ^ 7 + Polynomial.X ^ 6 + Polynomial.X ^ 5 + Polynomial.X ^ 4
      + Polynomial.X ^ 3 + Polynomial.X ^ 2 + Polynomial.X + 1 := by
  have t0 : Nat.testBit 0xFF 0 = true := by decide
  have t1 : Nat.testBit 0xFF 1 = true := by decide
  have t2 : Nat.testBit 0xFF 2 = true := by decide
  have t3 : Nat.testBit 0xFF 3 = true := by decide
  have t4 : Nat.testBit 0xFF 4 = true := by decide
  have t5 : Nat.testBit 0xFF 5 = true := by decide
  have t6 : Nat.testBit 0xFF 6 = true := by decide
  have t7 : Nat.testBit 0xFF 7 = true := by decide
  simp only [bytePoly, Finset.sum_range_succ, Finset.sum_range_zero, t0, t1, t2, t3, t4, t5, t6,
    t7]
  simp
  ring

/-! ## Status reads -/

/-- The value of `mgos_sht31_status`, whatever the device record and the write answer. -/
theorem status_value (sensor : mgos_sht31) (wr : Bool) (rd : Option (List Nat)) :
    (mgos_sht31_status sensor wr rd).1 =
      match rd with
      | none => 0
      | some data =>
        if byteAt data 2 = crc8 data 2 then byteAt data 0 * 256 + byteAt data 1 else 0 := by
  cases rd with
  | none => rfl
  | some data =>
    have hb0 : byteAt data 0 < 256 := Nat.mod_lt _ (by norm_num)
    have hb1 : byteAt data 1 < 256 := Nat.mod_lt _ (by norm_num)
    by_cases hcrc : byteAt data 2 = crc8 data 2
    · simp only [mgos_sht31_status, hcrc, ne_eq, not_true_eq_false, if_false, if_true,
        Nat.shiftLeft_eq]
      norm_num
      omega
    · simp [mgos_sht31_status, hcrc]

/-! ## Error detection -/

set_option maxRecDepth 10000 in
theorem crc8_unshift_shift : ∀ c < 256, crc8_unshift (crc8_shift c) = c := by
  decide

theorem crc8_shift_inj (a b : Nat) (ha : a < 256) (hb : b < 256)
    (hab : crc8_shift a = crc8_shift b) : a = b := by
  rw [← crc8_unshift_shift a ha, ← crc8_unshift_shift b hb, hab]

/-- The inner loop is injective on bytes. -/
theorem crc8_inner_inj (i a b : Nat) (ha : a < 256) (hb : b < 256)
    (hab : crc8_inner i a = crc8_inner i b) : a = b := by
  induction i generalizing a b with
  | zero => exact hab
  | succ i ih =>
    exact crc8_shift_inj a b ha hb (ih _ _ (crc8_shift_lt a) (crc8_shift_lt b) hab)

theorem xor_byte_lt (a b : Nat) (ha : a < 256) (hb : b < 256) : a ^^^ b < 256 :=
  Nat.xor_lt_two_pow (n := 8) ha hb

/-- The checksum of two bytes, as two passes of the byte step. -/
theorem crc8_pair (a b : Nat) (rest : List Nat) (ha : a < 256) (hb : b < 256) :
    crc8 (a :: b :: rest) 2 = crc8_inner 8 (crc8_inner 8 (0xFF ^^^ a) ^^^ b) := by
  have h1 : (0xFF ^^^ a) % 256 = 0xFF ^^^ a :=
    Nat.mod_eq_of_lt (xor_byte_lt _ _ (by norm_num) ha)
  have h2 : (crc8_inner 8 (0xFF ^^^ a) ^^^ b) % 256 = crc8_inner 8 (0xFF ^^^ a) ^^^ b :=
    Nat.mod_eq_of_lt (xor_byte_lt _ _ (crc8_inner_lt _ _ (xor_byte_lt _ _ (by norm_num) ha)) hb)
  show crc8_inner 8 ((crc8_inner 8 ((0xFF ^^^ a % 256) % 256) ^^^ b % 256) % 256) = _
  rw [Nat.mod_eq_of_lt ha, Nat.mod_eq_of_lt hb, h1, h2]

/-- A change of the first byte changes the checksum of a 2-byte group. -/
theorem crc8_pair_first (a a' b : Nat) (r r' : List Nat) (ha : a < 256) (ha' : a' < 256)
    (hb : b < 256) (hne : a' ≠ a) : crc8 (a' :: b :: r') 2 ≠ crc8 (a :: b :: r) 2 := by
  rw [crc8_pair a' b r' ha' hb, crc8_pair a b r ha hb]
  intro heq
  have hx := xor_byte_lt _ _ (by norm_num : 0xFF < 256) ha
  have hx' := xor_byte_lt _ _ (by norm_num : 0xFF < 256) ha'
  have h1 := crc8_inner_inj 8 _ _
    (xor_byte_lt _ _ (crc8_inner_lt 8 _ hx') hb) (xor_byte_lt _ _ (crc8_inner_lt 8 _ hx) hb) heq
  have h2 := crc8_inner_inj 8 _ _ hx' hx (Nat.xor_left_injective h1)
  exact hne (Nat.xor_right_injective h2)

/-- A change of the second byte changes the checksum of a 2-byte group. -/
theorem crc8_pair_second (a b b' : Nat) (r r' : List Nat) (ha : a < 256) (hb : b < 256)
    (hb' : b' < 256) (hne : b' ≠ b) : crc8 (a :: b' :: r') 2 ≠ crc8 (a :: b :: r) 2 := by
  rw [crc8_pair a b' r' ha hb', crc8_pair a b r ha hb]
  intro heq
  have hx := xor_byte_lt _ _ (by norm_num : 0xFF < 256) ha
  have h1 := crc8_inner_inj 8 _ _
    (xor_byte_lt _ _ (crc8_inner_lt 8 _ hx) hb') (xor_byte_lt _ _ (crc8_inner_lt 8 _ hx) hb) heq
  exact hne (Nat.xor_right_injective h1)

/-- Flipping a bit of a byte gives another byte. -/
theorem flip_byte (b k : Nat) (hb : b < 256) (hk : k < 8) :
    b ^^^ 2 ^ k < 256 ∧ b ^^^ 2 ^ k ≠ b := by
  have hpow : 2 ^ k < 256 := by
    calc 2 ^ k < 2 ^ 8 := Nat.pow_lt_pow_right (by norm_num) hk
      _ = 256 := rfl
  refine ⟨xor_byte_lt _ _ hb hpow, ?_⟩
  intro heq
  have h0 : b ^^^ 2 ^ k = b ^^^ 0 := by rw [heq, Nat.xor_zero]
  have := Nat.xor_right_injective h0
  exact absurd this (by positivity)

/-- A group of two bytes and a checksum with one byte changed fails the checksum test, when the
checksum was right before. -/
theorem group_change_detected (d0 d1 c e0 e1 ec : Nat) (r r' : List Nat)
    (h0 : d0 < 256) (h1 : d1 < 256) (hc : c < 256)
    (g0 : e0 < 256) (g1 : e1 < 256) (_ : ec < 256)
    (hok : c = crc8 (d0 :: d1 :: r) 2)
    (hone : (e0 ≠ d0 ∧ e1 = d1 ∧ ec = c) ∨ (e0 = d0 ∧ e1 ≠ d1 ∧ ec = c) ∨
      (e0 = d0 ∧ e1 = d1 ∧ ec ≠ c)) :
    ec ≠ crc8 (e0 :: e1 :: r') 2 := by
  rcases hone with ⟨hne, rfl, rfl⟩ | ⟨rfl, hne, rfl⟩ | ⟨rfl, rfl, hne⟩
  · rw [hok]
    exact (crc8_pair_first d0 e0 e1 r r' h0 g0 g1 hne).symm
  · rw [hok]
    exact (crc8_pair_second e0 d1 e1 r r' g0 h1 g1 hne).symm
  · rw [crc8_two e0 e1 r', ← crc8_two e0 e1 r, ← hok]
    exact hne

/-- Flipping one of the 48 bits of a 6-byte frame with right checksums gives a frame that fails
the checksum test. -/
theorem frame_flip_invalid (b0 b1 b2 b3 b4 b5 k : Nat)
    (h0 : b0 < 256) (h1 : b1 < 256) (h2 : b2 < 256) (h3 : b3 < 256) (h4 : b4 < 256)
    (h5 : b5 < 256) (hok : frameValid [b0, b1, b2, b3, b4, b5]) (hk : k < 48) :
    ¬ frameValid (flipBit [b0, b1, b2, b3, b4, b5] k) := by
  obtain ⟨hv1, hv2⟩ := hok
  have e1 : b2 = crc8 (b0 :: b1 :: [b2, b3, b4, b5]) 2 := by
    have hb : byteAt [b0, b1, b2, b3, b4, b5] 2 = b2 := by
      simp [byteAt, Nat.mod_eq_of_lt h2]
    rw [← hb]; exact hv1
  have e2 : b5 = crc8 (b3 :: b4 :: [b5]) 2 := by
    have hb : byteAt [b0, b1, b2, b3, b4, b5] 5 = b5 := by
      simp [byteAt, Nat.mod_eq_of_lt h5]
    rw [← hb]; exact hv2
  have hcases : k < 8 ∨ (8 ≤ k ∧ k < 16) ∨ (16 ≤ k ∧ k < 24) ∨ (24 ≤ k ∧ k < 32) ∨
      (32 ≤ k ∧ k < 40) ∨ (40 ≤ k ∧ k < 48) := by omega
  rcases hcases with hk0 | ⟨hl, hu⟩ | ⟨hl, hu⟩ | ⟨hl, hu⟩ | ⟨hl, hu⟩ | ⟨hl, hu⟩
  · obtain ⟨hlt, hne⟩ := flip_byte b0 k h0 hk0
    have hf : flipBit [b0, b1, b2, b3, b4, b5] k = [b0 ^^^ 2 ^ k, b1, b2, b3, b4, b5] := by
      simp [flipBit, hk0]
    rw [hf]
    rintro ⟨hv, _⟩
    have hb : byteAt [b0 ^^^ 2 ^ k, b1, b2, b3, b4, b5] 2 = b2 := by
      simp [byteAt, Nat.mod_eq_of_lt h2]
    rw [hb] at hv
    exact group_change_detected b0 b1 b2 _ b1 b2 _ _ h0 h1 h2 hlt h1 h2 e1
      (Or.inl ⟨hne, rfl, rfl⟩) hv
  · obtain ⟨hlt, hne⟩ := flip_byte b1 (k - 8) h1 (by omega)
    have hf : flipBit [b0, b1, b2, b3, b4, b5] k = [b0, b1 ^^^ 2 ^ (k - 8), b2, b3, b4, b5] := by
      have c1 : ¬ k < 8 := by omega
      have c2 : k - 8 < 8 := by omega
      simp [flipBit, c1, c2]
    rw [hf]
    rintro ⟨hv, _⟩
    have hb : byteAt [b0, b1 ^^^ 2 ^ (k - 8), b2, b3, b4, b5] 2 = b2 := by
      simp [byteAt, Nat.mod_eq_of_lt h2]
    rw [hb] at hv
    exact group_change_detected b0 b1 b2 b0 _ b2 _ _ h0 h1 h2 h0 hlt h2 e1
      (Or.inr (Or.inl ⟨rfl, hne, rfl⟩)) hv
  · obtain ⟨hlt, hne⟩ := flip_byte b2 (k - 8 - 8) h2 (by omega)
    have hf : flipBit [b0, b1, b2, b3, b4, b5] k
        = [b0, b1, b2 ^^^ 2 ^ (k - 8 - 8), b3, b4, b5] := by
      have c1 : ¬ k < 8 := by omega
      have c2 : ¬ k - 8 < 8 := by omega
      have c3 : k - 8 - 8 < 8 := by omega
      simp [flipBit, c1, c2, c3]
    rw [hf]
    rintro ⟨hv, _⟩
    have hb : byteAt [b0, b1, b2 ^^^ 2 ^ (k - 8 - 8), b3, b4, b5] 2
        = b2 ^^^ 2 ^ (k - 8 - 8) := by
      simp [byteAt, Nat.mod_eq_of_lt hlt]
    rw [hb] at hv
    exact group_change_detected b0 b1 b2 b0 b1 _ _ _ h0 h1 h2 h0 h1 hlt e1
      (Or.inr (Or.inr ⟨rfl, rfl, hne⟩)) hv
  · obtain ⟨hlt, hne⟩ := flip_byte b3 (k - 8 - 8 - 8) h3 (by omega)
    have hf : flipBit [b0, b1, b2, b3, b4, b5] k
        = [b0, b1, b2, b3 ^^^ 2 ^ (k - 8 - 8 - 8), b4, b5] := by
      have c1 : ¬ k < 8 := by omega
      have c2 : ¬ k - 8 < 8 := by omega
      have c3 : ¬ k - 8 - 8 < 8 := by omega
      have c4 : k - 8 - 8 - 8 < 8 := by omega
      simp [flipBit, c1, c2, c3, c4]
    rw [hf]
    rintro ⟨_, hv⟩
    have hb : byteAt [b0, b1, b2, b3 ^^^ 2 ^ (k - 8 - 8 - 8), b4, b5] 5 = b5 := by
      simp [byteAt, Nat.mod_eq_of_lt h5]
    rw [hb] at hv
    exact group_change_detected b3 b4 b5 _ b4 b5 _ _ h3 h4 h5 hlt h4 h5 e2
      (Or.inl ⟨hne, rfl, rfl⟩) hv
  · obtain ⟨hlt, hne⟩ := flip_byte b4 (k - 8 - 8 - 8 - 8) h4 (by omega)
    have hf : flipBit [b0, b1, b2, b3, b4, b5] k
        = [b0, b1, b2, b3, b4 ^^^ 2 ^ (k - 8 - 8 - 8 - 8), b5] := by
      have c1 : ¬ k < 8 := by omega
      have c2 : ¬ k - 8 < 8 := by omega
      have c3 : ¬ k - 8 - 8 < 8 := by omega
      have c4 : ¬ k - 8 - 8 - 8 < 8 := by omega
      have c5 : k - 8 - 8 - 8 - 8 < 8 := by omega
      simp [flipBit, c1, c2, c3, c4, c5]
    rw [hf]
    rintro ⟨_, hv⟩
    have hb : byteAt [b0, b1, b2, b3, b4 ^^^ 2 ^ (k - 8 - 8 - 8 - 8), b5] 5 = b5 := by
      simp [byteAt, Nat.mod_eq_of_lt h5]
    rw [hb] at hv
    exact group_change_detected b3 b4 b5 b3 _ b5 _ _ h3 h4 h5 h3 hlt h5 e2
      (Or.inr (Or.inl ⟨rfl, hne, rfl⟩)) hv
  · obtain ⟨hlt, hne⟩ := flip_byte b5 (k - 8 - 8 - 8 - 8 - 8) h5 (by omega)
    have hf : flipBit [b0, b1, b2, b3, b4, b5] k
        = [b0, b1, b2, b3, b4, b5 ^^^ 2 ^ (k - 8 - 8 - 8 - 8 - 8)] := by
      have c1 : ¬ k < 8 := by omega
      have c2 : ¬ k - 8 < 8 := by omega
      have c3 : ¬ k - 8 - 8 < 8 := by omega
      have c4 : ¬ k - 8 - 8 - 8 < 8 := by omega
      have c5 : ¬ k - 8 - 8 - 8 - 8 < 8 := by omega
      have c6 : k - 8 - 8 - 8 - 8 - 8 < 8 := by omega
      simp [flipBit, c1, c2, c3, c4, c5, c6]
    rw [hf]
    rintro ⟨_, hv⟩
    have hb : byteAt [b0, b1, b2, b3, b4, b5 ^^^ 2 ^ (k - 8 - 8 - 8 - 8 - 8)] 5
        = b5 ^^^ 2 ^ (k - 8 - 8 - 8 - 8 - 8) := by
      simp [byteAt, Nat.mod_eq_of_lt hlt]
    rw [hb] at hv
    exact group_change_detected b3 b4 b5 b3 b4 _ _ _ h3 h4 h5 h3 h4 hlt e2
      (Or.inr (Or.inr ⟨rfl, rfl, hne⟩)) hv

/-- Flipping one of the 24 bits of a group of two bytes and their checksum gives a group that
fails the checksum test. -/
theorem group_flip_detected (d0 d1 k : Nat) (h0 : d0 < 256) (h1 : d1 < 256) (hk : k < 24) :
    byteAt (flipBit [d0, d1, crc8 [d0, d1] 2] k) 2 ≠
      crc8 (flipBit [d0, d1, crc8 [d0, d1] 2] k) 2 := by
  have hc : crc8 [d0, d1] 2 < 256 := crc8_lt _ _
  have hcases : k < 8 ∨ (8 ≤ k ∧ k < 16) ∨ (16 ≤ k ∧ k < 24) := by omega
  rcases hcases with hk0 | ⟨hl, hu⟩ | ⟨hl, hu⟩
  · obtain ⟨hlt, hne⟩ := flip_byte d0 k h0 hk0
    have hf : flipBit [d0, d1, crc8 [d0, d1] 2] k = [d0 ^^^ 2 ^ k, d1, crc8 [d0, d1] 2] := by
      simp [flipBit, hk0]
    have hb : byteAt [d0 ^^^ 2 ^ k, d1, crc8 [d0, d1] 2] 2 = crc8 [d0, d1] 2 := by
      simp [byteAt, Nat.mod_eq_of_lt hc]
    rw [hf, hb]
    exact group_change_detected d0 d1 _ _ d1 _ [] _ h0 h1 hc hlt h1 hc rfl
      (Or.inl ⟨hne, rfl, rfl⟩)
  · obtain ⟨hlt, hne⟩ := flip_byte d1 (k - 8) h1 (by omega)
    have hf : flipBit [d0, d1, crc8 [d0, d1] 2] k
        = [d0, d1 ^^^ 2 ^ (k - 8), crc8 [d0, d1] 2] := by
      have c1 : ¬ k < 8 := by omega
      have c2 : k - 8 < 8 := by omega
      simp [flipBit, c1, c2]
    have hb : byteAt [d0, d1 ^^^ 2 ^ (k - 8), crc8 [d0, d1] 2] 2 = crc8 [d0, d1] 2 := by
      simp [byteAt, Nat.mod_eq_of_lt hc]
    rw [hf, hb]
    exact group_change_detected d0 d1 _ d0 _ _ [] _ h0 h1 hc h0 hlt hc rfl
      (Or.inr (Or.inl ⟨rfl, hne, rfl⟩))
  · obtain ⟨hlt, hne⟩ := flip_byte (crc8 [d0, d1] 2) (k - 8 - 8) hc (by omega)
    have hf : flipBit [d0, d1, crc8 [d0, d1] 2] k
        = [d0, d1, crc8 [d0, d1] 2 ^^^ 2 ^ (k - 8 - 8)] := by
      have c1 : ¬ k < 8 := by omega
      have c2 : ¬ k - 8 < 8 := by omega
      have c3 : k - 8 - 8 < 8 := by omega
      simp [flipBit, c1, c2, c3]
    have hb : byteAt [d0, d1, crc8 [d0, d1] 2 ^^^ 2 ^ (k - 8 - 8)] 2
        = crc8 [d0, d1] 2 ^^^ 2 ^ (k - 8 - 8) := by
      simp [byteAt, Nat.mod_eq_of_lt hlt]
    rw [hf, hb]
    exact group_change_detected d0 d1 _ d0 d1 _ [] _ h0 h1 hc h0 h1 hlt rfl
      (Or.inr (Or.inr ⟨rfl, rfl, hne⟩))

/-- The device `dev0` reaches `devMax` by 2^32 - 1 calls at time 1. -/
theorem reads_devMax : reads (some dev0) (List.replicate 4294967295 envEarly) = some devMax := by
  rw [reads_hits envEarly 4294967295 dev0 1 rfl (by norm_num [envEarly, dev0])
    (by norm_num [dev0]) (by norm_num [dev0])]
  rfl

/-- The raw counts below 65536 that a received frame carries. -/
theorem raw_le (data : List Nat) (i j : Nat) : byteAt data i * 256 + byteAt data j ≤ 65535 := by
  have h1 : byteAt data i < 256 := Nat.mod_lt _ (by norm_num)
  have h2 : byteAt data j < 256 := Nat.mod_lt _ (by norm_num)
  omega

/-- The successful fresh read of the frame with raw counts 1 and 1, one second long. -/
theorem read_frameOne (s : mgos_sht31) (h : Nat) (env : ReadEnv) (hbus : s.i2c = some h)
    (hnow : 2 ≤ env.start - s.stats.last_read_time) (hrd : env.rd = some (frameOf 1 1))
    (hsec : env.finish = env.start + 1) (husecs : s.stats.read_success_usecs = 0) :
    mgos_sht31_read (some s) env =
      ⟨true, some { s with
          temperature := -2948945 / 65536
          humidity := 1638425 / 1073741824
          stats := { s.stats with
            read := (s.stats.read + 1) % 2 ^ 32
            read_success := (s.stats.read_success + 1) % 2 ^ 32
            read_success_usecs := 1000000
            last_read_time := env.start } },
        missTrace h s.i2caddr⟩ := by
  rw [read_miss_ok_eq s h env (frameOf 1 1) hbus hnow hrd (frameOf_valid 1 1),
    (frameOf_raw 1 1 (by norm_num) (by norm_num)).1,
    (frameOf_raw 1 1 (by norm_num) (by norm_num)).2, convTemperature_one, convHumidity_one,
    husecs, addUsecs_second env.start env.finish hsec]

/-! ## Claims -/

/-- C1, refuted as stated: the device `dev0` reaches `devMax` by 2^32 - 1 cached calls; one
more call at time 1 is a cache hit that returns true, but `read` and `read_success_cached`,
both 4294967295 before, are 0 afterwards: they have not increased by 1. -/
theorem C1_counterexample :
    (mgos_sht31_create (some 1) 0x44 envCreateOk).1 = some dev0 ∧
    reads (some dev0) (List.replicate 4294967295 envEarly) = some devMax ∧
    devMax.i2c = some 1 ∧
    envEarly.start - devMax.stats.last_read_time < 2 ∧
    devMax.stats.read = 4294967295 ∧
    devMax.stats.read_success_cached = 4294967295 ∧
    (mgos_sht31_read (some devMax) envEarly).ret = true ∧
    (mgos_sht31_read (some devMax) envEarly).sensor =
      some ⟨some 1, 0x44, ⟨0, 0, 0, 0, 0⟩, 0, 0⟩ := by
  have hnow : envEarly.start - devMax.stats.last_read_time < 2 := by
    norm_num [envEarly, devMax]
  refine ⟨by decide, reads_devMax, rfl, hnow, rfl, rfl, ?_, ?_⟩
  · rw [read_hit_eq devMax 1 envEarly rfl hnow]
  · rw [read_hit_eq devMax 1 envEarly rfl hnow]
    norm_num [devMax]

/-- C1 as amended (cache hit step): on a device with a bus handle, a call whose clock sample is
less than `MGOS_SHT31_READ_DELAY` = 2 after `last_read_time` returns true, issues no
collaborator call at all, increments `read` and `read_success_cached` as `uint32_t` (by 1
modulo 2^32: by exactly 1 unless the counter holds 4294967295, which wraps to 0), and leaves
temperature, humidity, `last_read_time`, `read_success`, `read_success_usecs`, the bus handle and
the address as they were. -/
theorem C1_cache_hit_step (s : mgos_sht31) (h : Nat) (env : ReadEnv)
    (hbus : s.i2c = some h)
    (hnow : env.start - s.stats.last_read_time < 2) :
    (mgos_sht31_read (some s) env).ret = true ∧
    (mgos_sht31_read (some s) env).trace = [] ∧
    ∃ s', (mgos_sht31_read (some s) env).sensor = some s' ∧
      s'.stats.read = (s.stats.read + 1) % 2 ^ 32 ∧
      s'.stats.read_success_cached = (s.stats.read_success_cached + 1) % 2 ^ 32 ∧
      (s.stats.read < 4294967295 → s'.stats.read = s.stats.read + 1) ∧
      (s.stats.read_success_cached < 4294967295 →
        s'.stats.read_success_cached = s.stats.read_success_cached + 1) ∧
      s'.temperature = s.temperature ∧
      s'.humidity = s.humidity ∧
      s'.stats.last_read_time = s.stats.last_read_time ∧
      s'.stats.read_success = s.stats.read_success ∧
      s'.stats.read_success_usecs = s.stats.read_success_usecs ∧
      s'.i2c = s.i2c ∧
      s'.i2caddr = s.i2caddr := by
  rw [read_hit_eq s h env hbus hnow]
  refine ⟨rfl, rfl, _, rfl, rfl, rfl, ?_, ?_, rfl, rfl, rfl, rfl, rfl, rfl, rfl⟩
  · intro hlt
    exact Nat.mod_eq_of_lt (by omega)
  · intro hlt
    exact Nat.mod_eq_of_lt (by omega)

/-- Witness of the amended C1 on the device `dev0` at time 1. -/
theorem C1_cache_hit_step_witness :
    dev0.i2c = some 1 ∧ envEarly.start - dev0.stats.last_read_time < 2 ∧
    (mgos_sht31_read (some dev0) envEarly).ret = true ∧
    (mgos_sht31_read (some dev0) envEarly).trace = [] :=
  have hnow : envEarly.start - dev0.stats.last_read_time < 2 := by
    norm_num [envEarly, dev0]
  ⟨rfl, hnow, (C1_cache_hit_step dev0 1 envEarly rfl hnow).1,
    (C1_cache_hit_step dev0 1 envEarly rfl hnow).2.1⟩

/-- C2, refuted as stated: on `dev0` at time 10 (a cache miss) the trigger write fails, yet the
6-byte read delivers a frame with right checksums, and `mgos_sht31_read` returns true and stores
the measurement: the result of `mgos_sht31_cmd` is not looked at. -/
theorem C2_counterexample :
    2 ≤ envWriteFails.start - dev0.stats.last_read_time ∧
    (mgos_sht31_cmd (some dev0) MGOS_SHT31_MEAS_HIGHREP envWriteFails.wr).1 = false ∧
    (mgos_sht31_read (some dev0) envWriteFails).ret = true ∧
    (mgos_sht31_read (some dev0) envWriteFails).sensor =
      some ⟨some 1, 0x44, ⟨10, 1, 1, 0, 1000000⟩, 100, -45⟩ := by
  have hnow : 2 ≤ envWriteFails.start - dev0.stats.last_read_time := by
    norm_num [envWriteFails, dev0]
  have hread := read_frameGood dev0 1 envWriteFails rfl hnow rfl
    (by norm_num [envWriteFails]) rfl
  refine ⟨hnow, rfl, ?_, ?_⟩
  · rw [hread]
  · rw [hread]
    norm_num [envWriteFails, dev0]

/-- C2 as amended: on a cache miss with a failing trigger write, `mgos_sht31_read` goes on to the
6-byte read and has the same outcome (return value, state, trace) as with a successful write; it
returns false exactly when the 6-byte read fails or a checksum mismatches, and then no state
other than `read` is changed. -/
theorem C2_trigger_write_failure (s : mgos_sht31) (h : Nat) (env : ReadEnv)
    (hbus : s.i2c = some h)
    (hnow : 2 ≤ env.start - s.stats.last_read_time)
    (hwr : env.wr = false) :
    mgos_sht31_read (some s) env = mgos_sht31_read (some s) { env with wr := true } ∧
    ((mgos_sht31_read (some s) env).ret = false ↔
      (env.rd = none ∨ ∃ data, env.rd = some data ∧ ¬ frameValid data)) ∧
    ((mgos_sht31_read (some s) env).ret = false →
      (mgos_sht31_read (some s) env).sensor =
        some { s with stats := { s.stats with read := (s.stats.read + 1) % 2 ^ 32 } }) := by
  have hcases : (env.rd = none ∨ ∃ data, env.rd = some data ∧ ¬ frameValid data) ∨
      ∃ data, env.rd = some data ∧ frameValid data := by
    cases hrd : env.rd with
    | none => exact Or.inl (Or.inl rfl)
    | some data =>
      by_cases hok : frameValid data
      · exact Or.inr ⟨data, rfl, hok⟩
      · exact Or.inl (Or.inr ⟨data, rfl, hok⟩)
  refine ⟨?_, ?_, ?_⟩
  · obtain ⟨t0, w, rd, t1⟩ := env
    exact read_wr_indep (some s) t0 t1 rd w true
  · rcases hcases with hbad | ⟨data, hrd, hok⟩
    · rw [read_bad_eq s h env hbus hnow hbad]
      simp [hbad]
    · rw [read_miss_ok_eq s h env data hbus hnow hrd hok]
      simp [hrd, hok]
  · rcases hcases with hbad | ⟨data, hrd, hok⟩
    · rw [read_bad_eq s h env hbus hnow hbad]
      simp
    · rw [read_miss_ok_eq s h env data hbus hnow hrd hok]
      simp

/-- Witness of the amended C2: the trigger write fails and the checksum of the humidity is wrong. -/
theorem C2_trigger_write_failure_witness :
    dev0.i2c = some 1 ∧
    2 ≤ (⟨10, false, some frameBad, 11⟩ : ReadEnv).start - dev0.stats.last_read_time ∧
    (mgos_sht31_read (some dev0) ⟨10, false, some frameBad, 11⟩).ret = false :=
  have hnow : 2 ≤ (⟨10, false, some frameBad, 11⟩ : ReadEnv).start - dev0.stats.last_read_time := by
    norm_num [dev0]
  ⟨rfl, hnow,
    ((C2_trigger_write_failure dev0 1 ⟨10, false, some frameBad, 11⟩ rfl hnow rfl).2.1).mpr
      (Or.inr ⟨frameBad, rfl, by decide⟩)⟩

/-- C3, refuted as stated: on `devMax` (reached from `dev0` by 2^32 - 1 cached calls) a call
at time 2 is a cache miss whose bus read fails; it returns false and leaves every other field,
but `read`, 4294967295 before, is 0 afterwards: it has not been incremented by 1. -/
theorem C3_counterexample :
    reads (some dev0) (List.replicate 4294967295 envEarly) = some devMax ∧
    devMax.i2c = some 1 ∧
    2 ≤ envFailAt2.start - devMax.stats.last_read_time ∧
    envFailAt2.rd = none ∧
    devMax.stats.read = 4294967295 ∧
    (mgos_sht31_read (some devMax) envFailAt2).ret = false ∧
    (mgos_sht31_read (some devMax) envFailAt2).sensor =
      some ⟨some 1, 0x44, ⟨0, 0, 0, 4294967295, 0⟩, 0, 0⟩ := by
  have hnow : 2 ≤ envFailAt2.start - devMax.stats.last_read_time := by
    norm_num [envFailAt2, devMax]
  refine ⟨reads_devMax, rfl, hnow, rfl, rfl, ?_, ?_⟩
  · rw [read_bad_eq devMax 1 envFailAt2 rfl hnow (Or.inl rfl)]
  · rw [read_bad_eq devMax 1 envFailAt2 rfl hnow (Or.inl rfl)]
    norm_num [devMax]

/-- C3 as amended (a failed fresh read is atomic): on a cache miss, when the 6-byte read fails
or one of the two checksums mismatches, `mgos_sht31_read` returns false, `read` has been
incremented as `uint32_t` (by 1 modulo 2^32: by exactly 1 unless it held 4294967295, which
wraps to 0), and temperature, humidity, `last_read_time`, `read_success`,
`read_success_cached`, `read_success_usecs`, the bus handle and the address are as before. -/
theorem C3_failed_fresh_read_atomic (s : mgos_sht31) (h : Nat) (env : ReadEnv)
    (hbus : s.i2c = some h)
    (hnow : 2 ≤ env.start - s.stats.last_read_time)
    (hbad : env.rd = none ∨ ∃ data, env.rd = some data ∧
      (byteAt data 2 ≠ crc8 data 2 ∨ byteAt data 5 ≠ crc8 (data.drop 3) 2)) :
    (mgos_sht31_read (some s) env).ret = false ∧
    ∃ s', (mgos_sht31_read (some s) env).sensor = some s' ∧
      s'.temperature = s.temperature ∧
      s'.humidity = s.humidity ∧
      s'.stats.last_read_time = s.stats.last_read_time ∧
      s'.stats.read_success = s.stats.read_success ∧
      s'.stats.read_success_cached = s.stats.read_success_cached ∧
      s'.stats.read_success_usecs = s.stats.read_success_usecs ∧
      s'.stats.read = (s.stats.read + 1) % 2 ^ 32 ∧
      (s.stats.read < 4294967295 → s'.stats.read = s.stats.read + 1) ∧
      s'.i2c = s.i2c ∧
      s'.i2caddr = s.i2caddr := by
  have key : mgos_sht31_read (some s) env =
      ⟨false, some { s with stats := { s.stats with read := (s.stats.read + 1) % 2 ^ 32 } },
        missTrace h s.i2caddr⟩ := by
    rcases hbad with hrd | ⟨data, hrd, hcrc⟩
    · exact read_miss_none_eq s h env hbus hnow hrd
    · refine read_miss_bad_eq s h env data hbus hnow hrd ?_
      rintro ⟨h1, h2⟩
      rcases hcrc with hc | hc
      · exact hc h1
      · exact hc h2
  rw [key]
  refine ⟨rfl, _, rfl, rfl, rfl, rfl, rfl, rfl, rfl, rfl, ?_, rfl, rfl⟩
  intro hlt
  exact Nat.mod_eq_of_lt (by omega)

/-- Witness of the amended C3: the humidity checksum of the received frame is wrong. -/
theorem C3_failed_fresh_read_atomic_witness :
    dev0.i2c = some 1 ∧ 2 ≤ envBadCrc.start - dev0.stats.last_read_time ∧
    byteAt frameBad 5 ≠ crc8 (frameBad.drop 3) 2 ∧
    (mgos_sht31_read (some dev0) envBadCrc).ret = false :=
  have hnow : 2 ≤ envBadCrc.start - dev0.stats.last_read_time := by
    norm_num [envBadCrc, dev0]
  ⟨rfl, hnow, by decide,
    (C3_failed_fresh_read_atomic dev0 1 envBadCrc rfl hnow
      (Or.inr ⟨frameBad, rfl, Or.inr (by decide)⟩)).1⟩

/-- C4, the code at the failing input: `mgos_sht31_create` accepts the sensor and returns `dev0`
(with `last_read_time` 0), and a first `mgos_sht31_read` at time 1 takes the cached branch: it
returns true, issues no bus call, counts one cached read and leaves the never measured
temperature 0 and humidity 0 in place. -/
theorem C4_first_read_cached_at_early_time :
    (mgos_sht31_create (some 1) 0x44 envCreateOk).1 = some dev0 ∧
    envEarly.start = 1 ∧
    (mgos_sht31_read (some dev0) envEarly).ret = true ∧
    (mgos_sht31_read (some dev0) envEarly).trace = [] ∧
    (mgos_sht31_read (some dev0) envEarly).sensor =
      some ⟨some 1, 0x44, ⟨0, 1, 0, 1, 0⟩, 0, 0⟩ := by
  have hnow : envEarly.start - dev0.stats.last_read_time < 2 := by
    norm_num [envEarly, dev0]
  refine ⟨by decide, rfl, ?_, ?_, ?_⟩
  · rw [read_hit_eq dev0 1 envEarly rfl hnow]
  · rw [read_hit_eq dev0 1 envEarly rfl hnow]
  · rw [read_hit_eq dev0 1 envEarly rfl hnow]
    simp [dev0]

/-- C5, refuted as stated: on `devMax` (reached from `dev0` by 2^32 - 1 cached calls) a fresh
read at time 2 receives the frame with raw temperature 1 and raw humidity 1 and returns true.
The stored temperature is the binary32 value -2948945/65536, not 1*175/65535 - 45, the stored
humidity is 1638425/1073741824, not 1*100/65535, and `read`, 4294967295 before, is 0
afterwards. -/
theorem C5_counterexample :
    reads (some dev0) (List.replicate 4294967295 envEarly) = some devMax ∧
    devMax.i2c = some 1 ∧
    2 ≤ envOneAt2.start - devMax.stats.last_read_time ∧
    envOneAt2.rd = some (frameOf 1 1) ∧
    frameValid (frameOf 1 1) ∧
    devMax.stats.read = 4294967295 ∧
    (mgos_sht31_read (some devMax) envOneAt2).ret = true ∧
    (mgos_sht31_read (some devMax) envOneAt2).sensor =
      some ⟨some 1, 0x44, ⟨2, 0, 1, 4294967295, 1000000⟩, 1638425 / 1073741824,
        -2948945 / 65536⟩ ∧
    ((byteAt (frameOf 1 1) 0 * 256 + byteAt (frameOf 1 1) 1 : Nat) : ℚ) * 175 / 65535 - 45
      ≠ -2948945 / 65536 ∧
    ((byteAt (frameOf 1 1) 3 * 256 + byteAt (frameOf 1 1) 4 : Nat) : ℚ) * 100 / 65535
      ≠ 1638425 / 1073741824 := by
  have hnow : 2 ≤ envOneAt2.start - devMax.stats.last_read_time := by
    norm_num [envOneAt2, devMax]
  have hread := read_frameOne devMax 1 envOneAt2 rfl hnow rfl (by norm_num [envOneAt2]) rfl
  obtain ⟨e1, e2⟩ := frameOf_raw 1 1 (by norm_num) (by norm_num)
  refine ⟨reads_devMax, rfl, hnow, rfl, frameOf_valid 1 1, rfl, ?_, ?_, ?_, ?_⟩
  · rw [hread]
  · rw [hread]
    norm_num [envOneAt2, devMax]
  · rw [e1]; norm_num
  · rw [e2]; norm_num

/-- C5 as amended (successful fresh read): on a cache miss whose 6-byte read succeeds with both
checksums right, `mgos_sht31_read` returns true, stores together the temperature and the
humidity computed in `float` from the raw counts (count times 175, divided by 65535, minus 45,
resp. count times 100, divided by 65535, each operation rounded to binary32), which lie within
2^-16 of (data[0]*256+data[1])*175/65535 - 45 and within 2^-17 of
(data[3]*256+data[4])*100/65535, sets `last_read_time` to the time sampled at entry,
increments `read` and `read_success` as `uint32_t` (by 1 modulo 2^32: by exactly 1 unless the
counter holds 4294967295), and leaves `read_success_cached`, the bus handle and the address as
they were. -/
theorem C5_successful_fresh_read (s : mgos_sht31) (h : Nat) (env : ReadEnv) (data : List Nat)
    (hbus : s.i2c = some h)
    (hnow : 2 ≤ env.start - s.stats.last_read_time)
    (hrd : env.rd = some data)
    (hcrc1 : byteAt data 2 = crc8 data 2)
    (hcrc2 : byteAt data 5 = crc8 (data.drop 3) 2) :
    (mgos_sht31_read (some s) env).ret = true ∧
    ∃ s', (mgos_sht31_read (some s) env).sensor = some s' ∧
      s'.temperature =
        f32 (f32 (f32 (f32 ((byteAt data 0 * 256 + byteAt data 1 : Nat) : ℚ) * 175) / 65535)
          - 45) ∧
      s'.humidity =
        f32 (f32 (f32 ((byteAt data 3 * 256 + byteAt data 4 : Nat) : ℚ) * 100) / 65535) ∧
      |s'.temperature - (((byteAt data 0 * 256 + byteAt data 1 : Nat) : ℚ) * 175 / 65535 - 45)|
        ≤ 1 / 65536 ∧
      |s'.humidity - ((byteAt data 3 * 256 + byteAt data 4 : Nat) : ℚ) * 100 / 65535|
        ≤ 1 / 131072 ∧
      s'.stats.last_read_time = env.start ∧
      s'.stats.read = (s.stats.read + 1) % 2 ^ 32 ∧
      s'.stats.read_success = (s.stats.read_success + 1) % 2 ^ 32 ∧
      (s.stats.read < 4294967295 → s'.stats.read = s.stats.read + 1) ∧
      (s.stats.read_success < 4294967295 → s'.stats.read_success = s.stats.read_success + 1) ∧
      s'.stats.read_success_cached = s.stats.read_success_cached ∧
      s'.i2c = s.i2c ∧
      s'.i2caddr = s.i2caddr := by
  rw [read_miss_ok_eq s h env data hbus hnow hrd ⟨hcrc1, hcrc2⟩]
  refine ⟨rfl, _, rfl, rfl, rfl, ?_, ?_, rfl, rfl, rfl, ?_, ?_, rfl, rfl, rfl⟩
  · exact convTemperature_error _ (raw_le data 0 1)
  · exact convHumidity_error _ (raw_le data 3 4)
  · intro hlt
    exact Nat.mod_eq_of_lt (by omega)
  · intro hlt
    exact Nat.mod_eq_of_lt (by omega)

/-- Witness of the amended C5: `dev0` at time 10 receives `frameGood`. -/
theorem C5_successful_fresh_read_witness :
    dev0.i2c = some 1 ∧ 2 ≤ envGood.start - dev0.stats.last_read_time ∧
    envGood.rd = some frameGood ∧
    byteAt frameGood 2 = crc8 frameGood 2 ∧
    byteAt frameGood 5 = crc8 (frameGood.drop 3) 2 ∧
    (mgos_sht31_read (some dev0) envGood).ret = true :=
  have hnow : 2 ≤ envGood.start - dev0.stats.last_read_time := by
    norm_num [envGood, dev0]
  ⟨rfl, hnow, rfl, by decide, by decide,
    (C5_successful_fresh_read dev0 1 envGood frameGood rfl hnow rfl (by decide) (by decide)).1⟩

/-- C6, refuted as stated: on `dev0` at time 10 a fresh read receives the frame with raw
temperature 1 and raw humidity 1; the stored temperature is the binary32 value
-2948945/65536, which is not 1*175/65535 - 45, and the stored humidity is
1638425/1073741824, which is not 1*100/65535. -/
theorem C6_counterexample :
    dev0.i2c = some 1 ∧
    2 ≤ envOneAt10.start - dev0.stats.last_read_time ∧
    envOneAt10.rd = some (frameOf 1 1) ∧
    (mgos_sht31_read (some dev0) envOneAt10).ret = true ∧
    (mgos_sht31_read (some dev0) envOneAt10).sensor =
      some ⟨some 1, 0x44, ⟨10, 1, 1, 0, 1000000⟩, 1638425 / 1073741824, -2948945 / 65536⟩ ∧
    ((1 : Nat) : ℚ) * 175 / 65535 - 45 ≠ -2948945 / 65536 ∧
    ((1 : Nat) : ℚ) * 100 / 65535 ≠ 1638425 / 1073741824 := by
  have hnow : 2 ≤ envOneAt10.start - dev0.stats.last_read_time := by
    norm_num [envOneAt10, dev0]
  have hread := read_frameOne dev0 1 envOneAt10 rfl hnow rfl (by norm_num [envOneAt10]) rfl
  refine ⟨rfl, hnow, rfl, ?_, ?_, by norm_num, by norm_num⟩
  · rw [hread]
  · rw [hread]
    norm_num [envOneAt10, dev0]

/-- C6 as amended (conversion formula and endpoints, binary32 arithmetic): for all 16-bit raw
counts `rt` and `rh`, a fresh read that receives the frame carrying them stores the temperature
obtained in `float` as rt times 175, divided by 65535, minus 45 and the humidity obtained as rh
times 100, divided by 65535, each operation rounded to binary32; the stored temperature is
within 2^-16 of rt*175/65535 - 45 and the stored humidity within 2^-17 of rh*100/65535; raw
temperature 0 gives exactly -45, 65535 gives exactly 130, raw humidity 0 gives exactly 0 and
65535 gives exactly 100. -/
theorem C6_conversion_formula (s : mgos_sht31) (h : Nat) (env : ReadEnv) (rt rh : Nat)
    (hbus : s.i2c = some h)
    (hnow : 2 ≤ env.start - s.stats.last_read_time)
    (hrt : rt < 65536) (hrh : rh < 65536)
    (hrd : env.rd = some (frameOf rt rh)) :
    (mgos_sht31_read (some s) env).ret = true ∧
    ∃ s', (mgos_sht31_read (some s) env).sensor = some s' ∧
      s'.temperature = f32 (f32 (f32 (f32 (rt : ℚ) * 175) / 65535) - 45) ∧
      s'.humidity = f32 (f32 (f32 (rh : ℚ) * 100) / 65535) ∧
      |s'.temperature - ((rt : ℚ) * 175 / 65535 - 45)| ≤ 1 / 65536 ∧
      |s'.humidity - (rh : ℚ) * 100 / 65535| ≤ 1 / 131072 ∧
      (rt = 0 → s'.temperature = -45) ∧
      (rt = 65535 → s'.temperature = 130) ∧
      (rh = 0 → s'.humidity = 0) ∧
      (rh = 65535 → s'.humidity = 100) := by
  obtain ⟨e1, e2⟩ := frameOf_raw rt rh hrt hrh
  rw [read_miss_ok_eq s h env (frameOf rt rh) hbus hnow hrd (frameOf_valid rt rh), e1, e2]
  refine ⟨rfl, _, rfl, rfl, rfl, ?_, ?_, ?_, ?_, ?_, ?_⟩
  · exact convTemperature_error rt (by omega)
  · exact convHumidity_error rh (by omega)
  · intro h0
    show convTemperature rt = -45
    rw [h0]; exact convTemperature_endpoints.1
  · intro h0
    show convTemperature rt = 130
    rw [h0]; exact convTemperature_endpoints.2
  · intro h0
    show convHumidity rh = 0
    rw [h0]; exact convHumidity_endpoints.1
  · intro h0
    show convHumidity rh = 100
    rw [h0]; exact convHumidity_endpoints.2

/-- Witness of the amended C6: raw temperature 65535 and raw humidity 0. -/
theorem C6_conversion_formula_witness :
    dev0.i2c = some 1 ∧
    2 ≤ (⟨10, true, some (frameOf 65535 0), 11⟩ : ReadEnv).start - dev0.stats.last_read_time ∧
    (mgos_sht31_read (some dev0) ⟨10, true, some (frameOf 65535 0), 11⟩).ret = true :=
  have hnow :
      2 ≤ (⟨10, true, some (frameOf 65535 0), 11⟩ : ReadEnv).start - dev0.stats.last_read_time := by
    norm_num [dev0]
  ⟨rfl, hnow,
    (C6_conversion_formula dev0 1 ⟨10, true, some (frameOf 65535 0), 11⟩ 65535 0 rfl hnow
      (by decide) (by decide) rfl).1⟩

/-- C7 (self-test acceptance): with a bus handle and a successful allocation,
`mgos_sht31_create` issues soft reset, status read, heater enable, status read, heater disable,
status read in this order, and returns a device if and only if the three status words have
bit 13 (mask 0x2000) clear, set, clear; otherwise it returns `NULL`.  The returned device is the
zeroed record with the given bus handle and address (all counters 0, `last_read_time` 0). -/
theorem C7_self_test_acceptance (h addr : Nat) (env : CreateEnv) (halloc : env.alloc = true) :
    ((mgos_sht31_create (some h) addr env).1 ≠ none ↔
      ((mgos_sht31_status (freshDevice h addr) env.wr_status0 env.rd_status0).1 &&& 0x2000 = 0 ∧
       (mgos_sht31_status (freshDevice h addr) env.wr_status1 env.rd_status1).1 &&& 0x2000 ≠ 0 ∧
       (mgos_sht31_status (freshDevice h addr) env.wr_status2 env.rd_status2).1 &&& 0x2000 = 0)) ∧
    ((mgos_sht31_create (some h) addr env).1 ≠ none →
      (mgos_sht31_create (some h) addr env).1 = some (freshDevice h addr)) ∧
    (mgos_sht31_create (some h) addr env).2 = selfTestTrace h addr := by
  have hcreate := create_eq h addr env halloc
  by_cases hacc :
      ((mgos_sht31_status (freshDevice h addr) env.wr_status0 env.rd_status0).1 &&& 0x2000 = 0 ∧
       (mgos_sht31_status (freshDevice h addr) env.wr_status1 env.rd_status1).1 &&& 0x2000 ≠ 0 ∧
       (mgos_sht31_status (freshDevice h addr) env.wr_status2 env.rd_status2).1 &&& 0x2000 = 0)
  · rw [if_pos hacc] at hcreate
    rw [hcreate]
    exact ⟨⟨fun _ => hacc, fun _ => by simp⟩, fun _ => rfl, rfl⟩
  · rw [if_neg hacc] at hcreate
    rw [hcreate]
    exact ⟨⟨fun hne => absurd rfl hne, fun ha => absurd ha hacc⟩, fun hne => absurd rfl hne, rfl⟩

/-- Witness of C7: the responsive sensor of `envCreateOk` is accepted. -/
theorem C7_self_test_acceptance_witness :
    envCreateOk.alloc = true ∧
    (mgos_sht31_create (some 1) 0x44 envCreateOk).1 = some (freshDevice 1 0x44) :=
  ⟨rfl, (C7_self_test_acceptance 1 0x44 envCreateOk rfl).2.1 (by decide)⟩

/-- C8, refuted as stated: on `devMax` (reached from `dev0` by 2^32 - 1 cached calls) a fresh
read at time 2 succeeds and a second read at time 3 is served from the cache; across this second
call `read_success_cached` goes from 4294967295 to 0: it has not increased by 1. -/
theorem C8_counterexample :
    reads (some dev0) (List.replicate 4294967295 envEarly) = some devMax ∧
    devMax.i2c = some 1 ∧
    2 ≤ envGoodAt2.start - devMax.stats.last_read_time ∧
    envGoodAt2.rd = some frameGood ∧
    frameValid frameGood ∧
    envAt3.start - envGoodAt2.start < 2 ∧
    (mgos_sht31_read (some devMax) envGoodAt2).ret = true ∧
    (mgos_sht31_read (some devMax) envGoodAt2).sensor =
      some ⟨some 1, 0x44, ⟨2, 0, 1, 4294967295, 1000000⟩, 100, -45⟩ ∧
    (mgos_sht31_read (mgos_sht31_read (some devMax) envGoodAt2).sensor envAt3).ret = true ∧
    (mgos_sht31_read (mgos_sht31_read (some devMax) envGoodAt2).sensor envAt3).sensor =
      some ⟨some 1, 0x44, ⟨2, 1, 1, 0, 1000000⟩, 100, -45⟩ := by
  have hnow : 2 ≤ envGoodAt2.start - devMax.stats.last_read_time := by
    norm_num [envGoodAt2, devMax]
  have hclose : envAt3.start - envGoodAt2.start < 2 := by
    norm_num [envAt3, envGoodAt2]
  have h1 : mgos_sht31_read (some devMax) envGoodAt2 =
      ⟨true, some ⟨some 1, 0x44, ⟨2, 0, 1, 4294967295, 1000000⟩, 100, -45⟩,
        missTrace 1 0x44⟩ := by
    rw [read_frameGood devMax 1 envGoodAt2 rfl hnow rfl (by norm_num [envGoodAt2]) rfl]
    norm_num [envGoodAt2, devMax]
  have h2 : mgos_sht31_read (some ⟨some 1, 0x44, ⟨2, 0, 1, 4294967295, 1000000⟩, 100, -45⟩)
      envAt3 = ⟨true, some ⟨some 1, 0x44, ⟨2, 1, 1, 0, 1000000⟩, 100, -45⟩, []⟩ := by
    rw [read_hit_eq _ 1 envAt3 rfl (by norm_num [envAt3])]
    norm_num
  refine ⟨reads_devMax, rfl, hnow, rfl, by decide, hclose, ?_, ?_, ?_, ?_⟩
  · rw [h1]
  · rw [h1]
  · rw [h1, h2]
  · rw [h1, h2]

/-- C8 as amended (cache law over two calls): when a read at time `e1.start` misses the cache
and succeeds, a following read less than 2 later returns true with an empty trace; the two calls
together issue exactly one trigger command, one conversion wait and one 6-byte read; the second
call increments `read_success_cached` as `uint32_t` (by 1 modulo 2^32: by exactly 1 unless it
holds 4294967295, which wraps to 0), keeps `read_success`, and temperature and humidity are
those stored by the first call. -/
theorem C8_cache_law (s : mgos_sht31) (h : Nat) (e1 e2 : ReadEnv) (data : List Nat)
    (hbus : s.i2c = some h)
    (hmiss : 2 ≤ e1.start - s.stats.last_read_time)
    (hrd : e1.rd = some data)
    (hok : frameValid data)
    (hclose : e2.start - e1.start < 2) :
    (mgos_sht31_read (some s) e1).ret = true ∧
    (mgos_sht31_read (mgos_sht31_read (some s) e1).sensor e2).ret = true ∧
    (mgos_sht31_read (mgos_sht31_read (some s) e1).sensor e2).trace = [] ∧
    (mgos_sht31_read (some s) e1).trace ++
      (mgos_sht31_read (mgos_sht31_read (some s) e1).sensor e2).trace =
        [Event.i2c_write (some h) s.i2caddr [0x24, 0x00] true, Event.usleep 15000,
         Event.i2c_read (some h) s.i2caddr 6 true] ∧
    ∃ s1 s2, (mgos_sht31_read (some s) e1).sensor = some s1 ∧
      (mgos_sht31_read (mgos_sht31_read (some s) e1).sensor e2).sensor = some s2 ∧
      s2.stats.read_success_cached = (s1.stats.read_success_cached + 1) % 2 ^ 32 ∧
      (s1.stats.read_success_cached < 4294967295 →
        s2.stats.read_success_cached = s1.stats.read_success_cached + 1) ∧
      s2.stats.read_success = s1.stats.read_success ∧
      s2.temperature = s1.temperature ∧
      s2.humidity = s1.humidity := by
  have h2 := read_hit_eq
    { s with
      temperature := convTemperature (byteAt data 0 * 256 + byteAt data 1)
      humidity := convHumidity (byteAt data 3 * 256 + byteAt data 4)
      stats := { s.stats with
        read := (s.stats.read + 1) % 2 ^ 32
        read_success := (s.stats.read_success + 1) % 2 ^ 32
        read_success_usecs := addUsecs s.stats.read_success_usecs e1.start e1.finish
        last_read_time := e1.start } } h e2 hbus hclose
  rw [read_miss_ok_eq s h e1 data hbus hmiss hrd hok]
  show _ ∧ (mgos_sht31_read (some _) e2).ret = true ∧ (mgos_sht31_read (some _) e2).trace = [] ∧
    missTrace h s.i2caddr ++ (mgos_sht31_read (some _) e2).trace = _ ∧
    ∃ s1 s2, some _ = some s1 ∧ (mgos_sht31_read (some _) e2).sensor = some s2 ∧ _
  rw [h2]
  refine ⟨rfl, rfl, rfl, rfl, _, _, rfl, rfl, rfl, ?_, rfl, rfl, rfl⟩
  intro hlt
  exact Nat.mod_eq_of_lt (by omega)

/-- Witness of the amended C8: `dev0` reads `frameGood` at time 10 and is asked again at
time 11. -/
theorem C8_cache_law_witness :
    dev0.i2c = some 1 ∧ 2 ≤ envGood.start - dev0.stats.last_read_time ∧
    frameValid frameGood ∧
    (⟨11, true, none, 11⟩ : ReadEnv).start - envGood.start < 2 ∧
    (mgos_sht31_read (mgos_sht31_read (some dev0) envGood).sensor ⟨11, true, none, 11⟩).ret
      = true :=
  have hmiss : 2 ≤ envGood.start - dev0.stats.last_read_time := by
    norm_num [envGood, dev0]
  have hclose : (⟨11, true, none, 11⟩ : ReadEnv).start - envGood.start < 2 := by
    norm_num [envGood]
  ⟨rfl, hmiss, by decide, hclose,
    (C8_cache_law dev0 1 envGood ⟨11, true, none, 11⟩ frameGood rfl hmiss rfl (by decide)
      hclose).2.1⟩

/-- C9 (invalidation law): on a device with a bus handle, a call at least 2 (exactly 2 included)
after `last_read_time` does not take the cached branch: it issues the trigger command, the
conversion wait and a 6-byte read and keeps `read_success_cached`.  Hence when this first read
succeeds and a second one comes at least 2 later, the second issues the same fresh bus
transaction and keeps `read_success_cached` too. -/
theorem C9_invalidation_law (s : mgos_sht31) (h : Nat) (e1 e2 : ReadEnv)
    (hbus : s.i2c = some h)
    (hmiss : 2 ≤ e1.start - s.stats.last_read_time) :
    (mgos_sht31_read (some s) e1).trace =
      [Event.i2c_write (some h) s.i2caddr [0x24, 0x00] true, Event.usleep 15000,
       Event.i2c_read (some h) s.i2caddr 6 true] ∧
    (∃ s1, (mgos_sht31_read (some s) e1).sensor = some s1 ∧
      s1.stats.read_success_cached = s.stats.read_success_cached) ∧
    ((mgos_sht31_read (some s) e1).ret = true → 2 ≤ e2.start - e1.start →
      (mgos_sht31_read (mgos_sht31_read (some s) e1).sensor e2).trace =
        [Event.i2c_write (some h) s.i2caddr [0x24, 0x00] true, Event.usleep 15000,
         Event.i2c_read (some h) s.i2caddr 6 true] ∧
      ∃ s2, (mgos_sht31_read (mgos_sht31_read (some s) e1).sensor e2).sensor = some s2 ∧
        s2.stats.read_success_cached = s.stats.read_success_cached) := by
  obtain ⟨htr, s1, hs1, hb1, ha1, hc1, hl1⟩ := read_miss_summary s h e1 hbus hmiss
  refine ⟨htr, ⟨s1, hs1, hc1⟩, ?_⟩
  intro hret hfar
  have hmiss2 : 2 ≤ e2.start - s1.stats.last_read_time := by rw [hl1 hret]; exact hfar
  obtain ⟨htr2, s2, hs2, _, _, hc2, _⟩ := read_miss_summary s1 h e2 hb1 hmiss2
  rw [hs1]
  refine ⟨?_, s2, hs2, hc2.trans hc1⟩
  rw [htr2, ha1]
  rfl

/-- Witness of C9: `dev0` at time exactly 2. -/
theorem C9_invalidation_law_witness :
    dev0.i2c = some 1 ∧
    2 ≤ (⟨2, true, some frameGood, 3⟩ : ReadEnv).start - dev0.stats.last_read_time ∧
    (mgos_sht31_read (some dev0) ⟨2, true, some frameGood, 3⟩).trace =
      [Event.i2c_write (some 1) 0x44 [0x24, 0x00] true, Event.usleep 15000,
       Event.i2c_read (some 1) 0x44 6 true] :=
  have hmiss :
      2 ≤ (⟨2, true, some frameGood, 3⟩ : ReadEnv).start - dev0.stats.last_read_time := by
    norm_num [dev0]
  ⟨rfl, hmiss,
    (C9_invalidation_law dev0 1 ⟨2, true, some frameGood, 3⟩ ⟨4, true, some frameGood, 5⟩ rfl
      hmiss).1⟩

/-- C10, refuted as stated: from the device `mgos_sht31_create` returns, the run `longRun` of
2^32 calls (one failed read, one successful fresh read, 2^32 - 2 cached reads) ends in
`wrapState`, where the stored `read` is 0 while `read_success` is 1 and `read_success_cached`
is 4294967294. -/
theorem C10_counterexample :
    (mgos_sht31_create (some 1) 0x44 envCreateOk).1 = some dev0 ∧
    longRun.length = 2 ^ 32 ∧
    reads (some dev0) longRun = some wrapState ∧
    ¬ (wrapState.stats.read ≥
        wrapState.stats.read_success + wrapState.stats.read_success_cached) := by
  have hfail : 2 ≤ envFailAt2.start - dev0.stats.last_read_time := by
    norm_num [envFailAt2, dev0]
  have h1 : mgos_sht31_read (some dev0) envFailAt2 =
      ⟨false, some ⟨some 1, 0x44, ⟨0, 1, 0, 0, 0⟩, 0, 0⟩, missTrace 1 0x44⟩ := by
    rw [read_bad_eq dev0 1 envFailAt2 rfl hfail (Or.inl rfl)]
    norm_num [dev0]
  have h2 : mgos_sht31_read (some ⟨some 1, 0x44, ⟨0, 1, 0, 0, 0⟩, 0, 0⟩) envGoodAt3 =
      ⟨true, some ⟨some 1, 0x44, ⟨3, 2, 1, 0, 1000000⟩, 100, -45⟩, missTrace 1 0x44⟩ := by
    rw [read_frameGood _ 1 envGoodAt3 rfl (by norm_num [envGoodAt3]) rfl
      (by norm_num [envGoodAt3]) rfl]
    norm_num [envGoodAt3]
  have h3 := reads_hits envAt4 4294967294 ⟨some 1, 0x44, ⟨3, 2, 1, 0, 1000000⟩, 100, -45⟩ 1 rfl
    (by norm_num [envAt4]) (by norm_num) (by norm_num)
  refine ⟨by decide, ?_, ?_, by decide⟩
  · rw [longRun, List.length_cons, List.length_cons, List.length_replicate]
    norm_num
  · rw [longRun, reads_cons, h1, reads_cons, h2, h3]
    rfl

/-- C10 as amended: in every state reached from a freshly constructed device by fewer than 2^32
`mgos_sht31_read` calls (arbitrary times and bus answers) the stored counters satisfy
read >= read_success + read_success_cached. -/
theorem C10_statistics_invariant (i2c : Option Nat) (addr : Nat) (cenv : CreateEnv)
    (dev : mgos_sht31) (envs : List ReadEnv)
    (hdev : (mgos_sht31_create i2c addr cenv).1 = some dev)
    (hlen : envs.length < 2 ^ 32) :
    ∃ s', reads (some dev) envs = some s' ∧
      s'.stats.read ≥ s'.stats.read_success + s'.stats.read_success_cached := by
  obtain ⟨h, _, hfresh⟩ := create_some i2c addr cenv dev hdev
  subst hfresh
  obtain ⟨s', hs', _, _, hinv⟩ := reads_counts envs (freshDevice h addr) h rfl
    (by simpa [freshDevice] using hlen) (Nat.le_refl 0)
  exact ⟨s', hs', hinv⟩

/-- Witness of the amended C10: a failed read, a fresh read and a cached read on `dev0`. -/
theorem C10_statistics_invariant_witness :
    (mgos_sht31_create (some 1) 0x44 envCreateOk).1 = some dev0 ∧
    [envFailAt2, envGoodAt3, envAt4].length < 2 ^ 32 ∧
    ∃ s', reads (some dev0) [envFailAt2, envGoodAt3, envAt4] = some s' ∧
      s'.stats.read ≥ s'.stats.read_success + s'.stats.read_success_cached :=
  ⟨by decide, by decide,
    C10_statistics_invariant (some 1) 0x44 envCreateOk dev0 [envFailAt2, envGoodAt3, envAt4]
      (by decide) (by decide)⟩

/-- C11, refuted as stated: the run `longRun` on the device `mgos_sht31_create` returns has
N = 2^32 calls, but the stored `read` counter has wrapped and is 0 afterwards. -/
theorem C11_counterexample :
    (mgos_sht31_create (some 1) 0x44 envCreateOk).1 = some dev0 ∧
    longRun.length = 2 ^ 32 ∧
    reads (some dev0) longRun = some wrapState ∧
    wrapState.stats.read = 0 ∧
    wrapState.stats.read ≠ longRun.length := by
  refine ⟨by decide, longRun_length, reads_longRun, rfl, ?_⟩
  rw [longRun_length]
  decide

/-- C11 as amended: after N `mgos_sht31_read` calls on a freshly constructed device, of which F
return false, C are served from the cache and S are successful fresh reads, the 32-bit counters
are read = N mod 2^32, read_success_cached = C mod 2^32 and read_success = S mod 2^32 (hence
read = N, read_success_cached = C, read_success = S whenever N < 2^32), and N - F = C + S with
F + C + S = N: every call is of exactly one of the three kinds. -/
theorem C11_statistics_accounting (i2c : Option Nat) (addr : Nat) (cenv : CreateEnv)
    (dev : mgos_sht31) (envs : List ReadEnv)
    (hdev : (mgos_sht31_create i2c addr cenv).1 = some dev) :
    ∃ s', reads (some dev) envs = some s' ∧
      s'.stats.read = envs.length % 2 ^ 32 ∧
      s'.stats.read_success_cached = (outcomes (some dev) envs).countP isCached % 2 ^ 32 ∧
      s'.stats.read_success = (outcomes (some dev) envs).countP isFresh % 2 ^ 32 ∧
      (envs.length < 2 ^ 32 →
        s'.stats.read = envs.length ∧
        s'.stats.read_success_cached = (outcomes (some dev) envs).countP isCached ∧
        s'.stats.read_success = (outcomes (some dev) envs).countP isFresh) ∧
      envs.length - (outcomes (some dev) envs).countP isFailure =
        (outcomes (some dev) envs).countP isCached + (outcomes (some dev) envs).countP isFresh ∧
      (outcomes (some dev) envs).countP isFailure + (outcomes (some dev) envs).countP isCached +
        (outcomes (some dev) envs).countP isFresh = envs.length := by
  obtain ⟨h, _, hfresh⟩ := create_some i2c addr cenv dev hdev
  subst hfresh
  obtain ⟨s', hs', hr, hc, hs, hsum⟩ := reads_accounting envs (freshDevice h addr) h rfl
    (by norm_num [freshDevice]) (by norm_num [freshDevice]) (by norm_num [freshDevice])
  have hr' : s'.stats.read = envs.length % 2 ^ 32 := by
    rw [hr]; simp [freshDevice]
  have hc' : s'.stats.read_success_cached
      = (outcomes (some (freshDevice h addr)) envs).countP isCached % 2 ^ 32 := by
    rw [hc]; simp [freshDevice]
  have hs'' : s'.stats.read_success
      = (outcomes (some (freshDevice h addr)) envs).countP isFresh % 2 ^ 32 := by
    rw [hs]; simp [freshDevice]
  refine ⟨s', hs', hr', hc', hs'', ?_, by omega, hsum⟩
  intro hlen
  refine ⟨?_, ?_, ?_⟩
  · rw [hr']; exact Nat.mod_eq_of_lt hlen
  · rw [hc']; exact Nat.mod_eq_of_lt (by omega)
  · rw [hs'']; exact Nat.mod_eq_of_lt (by omega)

/-- Witness of the amended C11: a failed read, a fresh read and a cached read on `dev0`. -/
theorem C11_statistics_accounting_witness :
    (mgos_sht31_create (some 1) 0x44 envCreateOk).1 = some dev0 ∧
    ∃ s', reads (some dev0) [envFailAt2, envGoodAt3, envAt4] = some s' ∧
      s'.stats.read = 3 % 2 ^ 32 :=
  ⟨by decide,
    (C11_statistics_accounting (some 1) 0x44 envCreateOk dev0 [envFailAt2, envGoodAt3, envAt4]
      (by decide)).imp (fun _ hs => ⟨hs.1, hs.2.1⟩)⟩

/-- C12 (known vector and determinism): `crc8` is a function of the `len` bytes it is given and
of nothing else, so two buffers that agree on these bytes have the same checksum; and the
checksum of the bytes 0x00, 0x00 is 0x81. -/
theorem C12_crc8_deterministic (data data' : List Nat) (len : Nat)
    (hsame : data.take len = data'.take len) :
    crc8 data len = crc8 data' len ∧ crc8 [0x00, 0x00] 2 = 0x81 := by
  refine ⟨?_, by decide⟩
  unfold crc8
  rw [crc8_outer_take len data, crc8_outer_take len data', hsame]

/-- Witness of C12: two buffers that differ after the second byte only. -/
theorem C12_crc8_deterministic_witness :
    [0xBE, 0xEF, 0x92].take 2 = [0xBE, 0xEF, 0x00, 0x07].take 2 ∧
    crc8 [0xBE, 0xEF, 0x92] 2 = crc8 [0xBE, 0xEF, 0x00, 0x07] 2 :=
  ⟨rfl, (C12_crc8_deterministic [0xBE, 0xEF, 0x92] [0xBE, 0xEF, 0x00, 0x07] 2 rfl).1⟩

/-- C13 (the checksum is polynomial remainder division): for every byte sequence `data` of
length n, the byte `crc8(data)`, read as a polynomial over GF(2), is the remainder modulo
G(x) = x^8 + x^5 + x^4 + 1 of M(x) * x^8 + 0xFF(x) * x^(8n), and it is the only byte with this
polynomial.  Here M(x), the message read most significant bit first, has no term of degree 8n or
more, and 0xFF(x) = x^7 + ... + 1.  The function returns a byte for every n, and the checksum of
the empty sequence is 0xFF. -/
theorem C13_crc8_polynomial_remainder (data : List Nat) :
    bytePoly (crc8 data data.length) =
      (msgPoly data * Polynomial.X ^ 8 + bytePoly 0xFF * Polynomial.X ^ (8 * data.length))
        %ₘ (Polynomial.X ^ 8 + Polynomial.X ^ 5 + Polynomial.X ^ 4 + 1) ∧
    crc8 data data.length < 256 ∧
    (∀ c, c < 256 → bytePoly c = crcRemainder data → c = crc8 data data.length) ∧
    (∀ m, 8 * data.length ≤ m → (msgPoly data).coeff m = 0) ∧
    bytePoly 0xFF = Polynomial.X ^ 7 + Polynomial.X ^ 6 + Polynomial.X ^ 5 + Polynomial.X ^ 4
      + Polynomial.X ^ 3 + Polynomial.X ^ 2 + Polynomial.X + 1 ∧
    crc8 [] 0 = 0xFF := by
  refine ⟨crc8_poly data, crc8_lt data data.length, ?_, msgPoly_coeff_high data, bytePoly_0xFF,
    rfl⟩
  intro c hc hpoly
  exact bytePoly_inj c _ hc (crc8_lt data data.length) (hpoly.trans (crc8_poly data).symm)

/-- C14 (accessor sentinel): `mgos_sht31_getTemperature` (resp. `mgos_sht31_getHumidity`)
returns `NAN` if and only if the `mgos_sht31_read` it invokes returns false; otherwise it
returns the temperature (resp. humidity) field of the record as that read leaves it, cached or
fresh.  The accessor leaves the record and issues the bus calls exactly as the read does. -/
theorem C14_accessor_sentinel (sensor : Option mgos_sht31) (env : ReadEnv) :
    ((mgos_sht31_getTemperature sensor env).value = none ↔
      (mgos_sht31_read sensor env).ret = false) ∧
    ((mgos_sht31_getHumidity sensor env).value = none ↔
      (mgos_sht31_read sensor env).ret = false) ∧
    ((mgos_sht31_read sensor env).ret = true →
      ∃ s', (mgos_sht31_read sensor env).sensor = some s' ∧
        (mgos_sht31_getTemperature sensor env).value = some s'.temperature ∧
        (mgos_sht31_getHumidity sensor env).value = some s'.humidity) ∧
    (mgos_sht31_getTemperature sensor env).sensor = (mgos_sht31_read sensor env).sensor ∧
    (mgos_sht31_getHumidity sensor env).sensor = (mgos_sht31_read sensor env).sensor ∧
    (mgos_sht31_getTemperature sensor env).trace = (mgos_sht31_read sensor env).trace ∧
    (mgos_sht31_getHumidity sensor env).trace = (mgos_sht31_read sensor env).trace := by
  have hsome : (mgos_sht31_read sensor env).ret = true →
      ∃ s', (mgos_sht31_read sensor env).sensor = some s' := by
    intro hret
    cases sensor with
    | none => simp [mgos_sht31_read] at hret
    | some s =>
      cases hi : s.i2c with
      | none => simp [mgos_sht31_read, hi] at hret
      | some h =>
        obtain ⟨s', hs', _⟩ := read_step_kind s h env hi
        exact ⟨s', hs'⟩
  cases hret : (mgos_sht31_read sensor env).ret with
  | false =>
    simp [mgos_sht31_getTemperature, mgos_sht31_getHumidity, hret]
  | true =>
    obtain ⟨s', hs'⟩ := hsome hret
    simp [mgos_sht31_getTemperature, mgos_sht31_getHumidity, hret, hs']

/-- C15 (an absent device is rejected): whatever the address, the bus handle and the answers
to the bus writes, `mgos_sht31_create` returns `NULL` when every bus read fails, and more
generally whenever the second status read (the one after heater-enable) fails or delivers a
wrong checksum. -/
theorem C15_absent_device_rejected (i2c : Option Nat) (addr : Nat) (env : CreateEnv)
    (hbad : (env.rd_status0 = none ∧ env.rd_status1 = none ∧ env.rd_status2 = none) ∨
      env.rd_status1 = none ∨
      ∃ data, env.rd_status1 = some data ∧ byteAt data 2 ≠ crc8 data 2) :
    (mgos_sht31_create i2c addr env).1 = none := by
  have hst : ∀ h, (mgos_sht31_status (freshDevice h addr) env.wr_status1 env.rd_status1).1
      = 0 := by
    intro h
    rw [status_value]
    rcases hbad with ⟨_, hrd, _⟩ | hrd | ⟨data, hrd, hcrc⟩
    · rw [hrd]
    · rw [hrd]
    · rw [hrd]; exact if_neg hcrc
  cases i2c with
  | none => rfl
  | some h =>
    cases halloc : env.alloc with
    | false => simp [mgos_sht31_create, halloc]
    | true =>
      rw [create_eq h addr env halloc, if_neg]
      rintro ⟨_, h1, _⟩
      apply h1
      rw [hst h]
      rfl

/-- Witness of C15: no device answers on the bus. -/
theorem C15_absent_device_rejected_witness :
    (envCreateAbsent.rd_status0 = none ∧ envCreateAbsent.rd_status1 = none ∧
      envCreateAbsent.rd_status2 = none) ∧
    (mgos_sht31_create (some 1) 0x44 envCreateAbsent).1 = none :=
  ⟨⟨rfl, rfl, rfl⟩,
    C15_absent_device_rejected (some 1) 0x44 envCreateAbsent (Or.inl ⟨rfl, rfl, rfl⟩)⟩

/-- C16 (invalid arguments and statistics snapshot): `mgos_sht31_create` with a `NULL` bus
returns `NULL` without any bus call; `mgos_sht31_read` with a `NULL` device, or with a device
whose bus handle is `NULL`, returns false with an empty trace and leaves the record (its `read`
counter included) as it was; `mgos_sht31_getStats` returns false if and only if the device or
the destination is `NULL`, and when it returns true the destination holds the statistics
record of the device and the device record is unchanged. -/
theorem C16_invalid_arguments (addr : Nat) (cenv : CreateEnv) (env : ReadEnv) (s : mgos_sht31)
    (sensor : Option mgos_sht31) (stats : Option mgos_sht31_stats) :
    mgos_sht31_create none addr cenv = (none, []) ∧
    mgos_sht31_read none env = ⟨false, none, []⟩ ∧
    mgos_sht31_read (some { s with i2c := none }) env =
      ⟨false, some { s with i2c := none }, []⟩ ∧
    ((mgos_sht31_getStats sensor stats).ret = false ↔ (sensor = none ∨ stats = none)) ∧
    ((mgos_sht31_getStats sensor stats).ret = true →
      ∃ dev, sensor = some dev ∧ (mgos_sht31_getStats sensor stats).stats = some dev.stats ∧
        (mgos_sht31_getStats sensor stats).sensor = some dev) ∧
    (mgos_sht31_getStats sensor stats).sensor = sensor := by
  refine ⟨rfl, rfl, rfl, ?_, ?_, ?_⟩
  · cases sensor <;> cases stats <;> simp [mgos_sht31_getStats]
  · cases sensor <;> cases stats <;> simp [mgos_sht31_getStats]
  · cases sensor <;> cases stats <;> rfl

/-- C17 (status read): `mgos_sht31_status` returns 0 when the 3-byte bus read fails or
data[2] differs from crc8(data[0..1]), and the big-endian word data[0]*256 + data[1] otherwise;
the value is the same whether the read-status command write succeeded or failed. -/
theorem C17_status_read (sensor : mgos_sht31) (wr wr' : Bool) (data : List Nat) :
    (mgos_sht31_status sensor wr none).1 = 0 ∧
    (mgos_sht31_status sensor wr (some data)).1 =
      (if byteAt data 2 = crc8 data 2 then byteAt data 0 * 256 + byteAt data 1 else 0) ∧
    (mgos_sht31_status sensor wr none).1 = (mgos_sht31_status sensor wr' none).1 ∧
    (mgos_sht31_status sensor wr (some data)).1 = (mgos_sht31_status sensor wr' (some data)).1 :=
  ⟨status_value sensor wr none, status_value sensor wr (some data),
    (status_value sensor wr none).trans (status_value sensor wr' none).symm,
    (status_value sensor wr (some data)).trans (status_value sensor wr' (some data)).symm⟩

/-- C18 (single-bit error detection): for every 2-byte value (d0, d1) with checksum
c = crc8([d0, d1]), flipping any one of the 24 bits of the group (d0, d1, c) gives a group whose
third byte is not the checksum of its first two.  Consequently, for every 6-byte frame with
right checksums, the frame with any one of its 48 bits flipped fails the checksum test, and a
fresh `mgos_sht31_read` that receives it returns false. -/
theorem C18_single_bit_error_detection (d0 d1 k b0 b1 b2 b3 b4 b5 j : Nat)
    (s : mgos_sht31) (h : Nat) (env : ReadEnv)
    (hd0 : d0 < 256) (hd1 : d1 < 256) (hk : k < 24)
    (h0 : b0 < 256) (h1 : b1 < 256) (h2 : b2 < 256) (h3 : b3 < 256) (h4 : b4 < 256)
    (h5 : b5 < 256) (hvalid : frameValid [b0, b1, b2, b3, b4, b5]) (hj : j < 48)
    (hbus : s.i2c = some h)
    (hmiss : 2 ≤ env.start - s.stats.last_read_time)
    (hrd : env.rd = some (flipBit [b0, b1, b2, b3, b4, b5] j)) :
    byteAt (flipBit [d0, d1, crc8 [d0, d1] 2] k) 2 ≠
      crc8 (flipBit [d0, d1, crc8 [d0, d1] 2] k) 2 ∧
    ¬ frameValid (flipBit [b0, b1, b2, b3, b4, b5] j) ∧
    (mgos_sht31_read (some s) env).ret = false := by
  have hinv := frame_flip_invalid b0 b1 b2 b3 b4 b5 j h0 h1 h2 h3 h4 h5 hvalid hj
  refine ⟨group_flip_detected d0 d1 k hd0 hd1 hk, hinv, ?_⟩
  rw [read_bad_eq s h env hbus hmiss (Or.inr ⟨_, hrd, hinv⟩)]

/-- Witness of C18: bit 4 of the checksum of the group (0xBE, 0xEF) is flipped, and bit 9 of
`frameGood` is flipped on the way to `dev0`. -/
theorem C18_single_bit_error_detection_witness :
    frameValid [0x00, 0x00, 0x81, 0xFF, 0xFF, 0xAC] ∧
    flipBit [0x00, 0x00, 0x81, 0xFF, 0xFF, 0xAC] 9 = [0x00, 0x02, 0x81, 0xFF, 0xFF, 0xAC] ∧
    2 ≤ (⟨10, true, some (flipBit [0x00, 0x00, 0x81, 0xFF, 0xFF, 0xAC] 9), 11⟩ : ReadEnv).start
      - dev0.stats.last_read_time ∧
    (mgos_sht31_read (some dev0)
      ⟨10, true, some (flipBit [0x00, 0x00, 0x81, 0xFF, 0xFF, 0xAC] 9), 11⟩).ret = false :=
  have hmiss :
      2 ≤ (⟨10, true, some (flipBit [0x00, 0x00, 0x81, 0xFF, 0xFF, 0xAC] 9), 11⟩ : ReadEnv).start
        - dev0.stats.last_read_time := by
    norm_num [dev0]
  ⟨by decide, by decide, hmiss,
    (C18_single_bit_error_detection 0xBE 0xEF 20 0x00 0x00 0x81 0xFF 0xFF 0xAC 9 dev0 1
      ⟨10, true, some (flipBit [0x00, 0x00, 0x81, 0xFF, 0xFF, 0xAC] 9), 11⟩
      (by decide) (by decide) (by decide) (by decide) (by decide) (by decide) (by decide)
      (by decide) (by decide) (by decide) (by decide) rfl hmiss rfl).2.2⟩

/-- C19 (CRC residue): for every byte sequence, appending its own checksum gives a sequence
whose checksum is zero: crc8(data ++ [crc8(data)]) = 0. -/
theorem C19_crc8_residue (data : List Nat) :
    crc8 (data ++ [crc8 data data.length]) (data ++ [crc8 data data.length]).length = 0 := by
  have hlt : crc8 data data.length < 256 := crc8_lt _ _
  rw [List.length_append, List.length_singleton]
  unfold crc8 at hlt ⊢
  rw [crc8_outer_append, Nat.mod_eq_of_lt hlt, Nat.xor_self]
  exact crc8_inner_zero 8

/-- The exact transfer functions r*175/65535 - 45 and r*100/65535 map
the raw counts 0..65535 into [-45, 130] and [0, 100] and are strictly increasing. -/
theorem transfer_exact_range_monotone (r1 r2 : Nat) (hr1 : r1 ≤ 65535) :
    -45 ≤ (r1 : ℚ) * 175 / 65535 - 45 ∧ (r1 : ℚ) * 175 / 65535 - 45 ≤ 130 ∧
    0 ≤ (r1 : ℚ) * 100 / 65535 ∧ (r1 : ℚ) * 100 / 65535 ≤ 100 ∧
    (r1 < r2 → (r1 : ℚ) * 175 / 65535 - 45 < (r2 : ℚ) * 175 / 65535 - 45) ∧
    (r1 < r2 → (r1 : ℚ) * 100 / 65535 < (r2 : ℚ) * 100 / 65535) := by
  obtain ⟨a0, a1⟩ := quotT_range r1 hr1
  obtain ⟨b0, b1⟩ := quotH_range r1 hr1
  refine ⟨by linarith, by linarith, b0, b1, ?_, ?_⟩
  · intro hlt
    have hq : (r1 : ℚ) < r2 := by exact_mod_cast hlt
    have := div_lt_div_of_pos_right (mul_lt_mul_of_pos_right hq (by norm_num : (0 : ℚ) < 175))
      (by norm_num : (0 : ℚ) < 65535)
    linarith
  · intro hlt
    have hq : (r1 : ℚ) < r2 := by exact_mod_cast hlt
    exact div_lt_div_of_pos_right (mul_lt_mul_of_pos_right hq (by norm_num : (0 : ℚ) < 100))
      (by norm_num : (0 : ℚ) < 65535)

/-- C20 (conversion range and monotonicity): for the bytes of every received frame the raw
counts b0*256+b1 lie in [0, 65535]; the temperature a successful fresh read stores lies in
[-45, 130] and the humidity in [0, 100]; and of two successful fresh reads the one with the
strictly larger raw temperature (resp. humidity) count stores the strictly larger temperature
(resp. humidity).  This holds of the exact transfer functions r*175/65535 - 45 and
r*100/65535, and also of the values as the code computes and stores them in `float`. -/
theorem C20_conversion_range_monotone (s1 s2 : mgos_sht31) (h1 h2 : Nat) (e1 e2 : ReadEnv)
    (d1 d2 : List Nat)
    (hbus1 : s1.i2c = some h1) (hmiss1 : 2 ≤ e1.start - s1.stats.last_read_time)
    (hrd1 : e1.rd = some d1) (hok1 : frameValid d1)
    (hbus2 : s2.i2c = some h2) (hmiss2 : 2 ≤ e2.start - s2.stats.last_read_time)
    (hrd2 : e2.rd = some d2) (hok2 : frameValid d2) :
    byteAt d1 0 * 256 + byteAt d1 1 ≤ 65535 ∧
    byteAt d1 3 * 256 + byteAt d1 4 ≤ 65535 ∧
    (-45 ≤ ((byteAt d1 0 * 256 + byteAt d1 1 : Nat) : ℚ) * 175 / 65535 - 45 ∧
      ((byteAt d1 0 * 256 + byteAt d1 1 : Nat) : ℚ) * 175 / 65535 - 45 ≤ 130 ∧
      0 ≤ ((byteAt d1 3 * 256 + byteAt d1 4 : Nat) : ℚ) * 100 / 65535 ∧
      ((byteAt d1 3 * 256 + byteAt d1 4 : Nat) : ℚ) * 100 / 65535 ≤ 100 ∧
      (byteAt d1 0 * 256 + byteAt d1 1 < byteAt d2 0 * 256 + byteAt d2 1 →
        ((byteAt d1 0 * 256 + byteAt d1 1 : Nat) : ℚ) * 175 / 65535 - 45
          < ((byteAt d2 0 * 256 + byteAt d2 1 : Nat) : ℚ) * 175 / 65535 - 45) ∧
      (byteAt d1 3 * 256 + byteAt d1 4 < byteAt d2 3 * 256 + byteAt d2 4 →
        ((byteAt d1 3 * 256 + byteAt d1 4 : Nat) : ℚ) * 100 / 65535
          < ((byteAt d2 3 * 256 + byteAt d2 4 : Nat) : ℚ) * 100 / 65535)) ∧
    ∃ r1 r2, (mgos_sht31_read (some s1) e1).sensor = some r1 ∧
      (mgos_sht31_read (some s2) e2).sensor = some r2 ∧
      -45 ≤ r1.temperature ∧ r1.temperature ≤ 130 ∧
      0 ≤ r1.humidity ∧ r1.humidity ≤ 100 ∧
      (byteAt d1 0 * 256 + byteAt d1 1 < byteAt d2 0 * 256 + byteAt d2 1 →
        r1.temperature < r2.temperature) ∧
      (byteAt d1 3 * 256 + byteAt d1 4 < byteAt d2 3 * 256 + byteAt d2 4 →
        r1.humidity < r2.humidity) := by
  rw [read_miss_ok_eq s1 h1 e1 d1 hbus1 hmiss1 hrd1 hok1,
    read_miss_ok_eq s2 h2 e2 d2 hbus2 hmiss2 hrd2 hok2]
  have hexact : _ := And.intro
    (transfer_exact_range_monotone (byteAt d1 0 * 256 + byteAt d1 1)
      (byteAt d2 0 * 256 + byteAt d2 1) (raw_le d1 0 1))
    (transfer_exact_range_monotone (byteAt d1 3 * 256 + byteAt d1 4)
      (byteAt d2 3 * 256 + byteAt d2 4) (raw_le d1 3 4))
  refine ⟨raw_le d1 0 1, raw_le d1 3 4,
    ⟨hexact.1.1, hexact.1.2.1, hexact.2.2.2.1, hexact.2.2.2.2.1, hexact.1.2.2.2.2.1,
      hexact.2.2.2.2.2.2⟩,
    _, _, rfl, rfl, ?_, ?_, ?_, ?_, ?_, ?_⟩
  · exact (convTemperature_bounds _ (raw_le d1 0 1)).1
  · exact (convTemperature_bounds _ (raw_le d1 0 1)).2
  · exact (convHumidity_bounds _ (raw_le d1 3 4)).1
  · exact (convHumidity_bounds _ (raw_le d1 3 4)).2
  · intro hlt
    exact convTemperature_strict _ _ hlt (raw_le d2 0 1)
  · intro hlt
    exact convHumidity_strict _ _ hlt (raw_le d2 3 4)

/-- Witness of C20: `dev0` reads raw temperature 0, then (as a second scenario) raw temperature
65535. -/
theorem C20_conversion_range_monotone_witness :
    frameValid frameGood ∧ frameValid (frameOf 65535 0) ∧
    2 ≤ envGood.start - dev0.stats.last_read_time ∧
    ∃ r1 r2, (mgos_sht31_read (some dev0) envGood).sensor = some r1 ∧
      (mgos_sht31_read (some dev0) ⟨10, true, some (frameOf 65535 0), 11⟩).sensor = some r2 ∧
      -45 ≤ r1.temperature ∧ r1.temperature ≤ 130 ∧ r1.temperature < r2.temperature := by
  have hmiss : 2 ≤ envGood.start - dev0.stats.last_read_time := by
    norm_num [envGood, dev0]
  have hmiss2 :
      2 ≤ (⟨10, true, some (frameOf 65535 0), 11⟩ : ReadEnv).start
        - dev0.stats.last_read_time := by
    norm_num [dev0]
  obtain ⟨_, _, _, r1, r2, hr1, hr2, hlo, hhi, _, _, hmono, _⟩ :=
    C20_conversion_range_monotone dev0 dev0 1 1 envGood
      ⟨10, true, some (frameOf 65535 0), 11⟩ frameGood (frameOf 65535 0) rfl hmiss rfl
      (by decide) rfl hmiss2 rfl (frameOf_valid 65535 0)
  exact ⟨by decide, frameOf_valid 65535 0, hmiss, r1, r2, hr1, hr2, hlo, hhi,
    hmono (by decide)⟩

end SHT31
